import Mathlib

/-!
Verification of the migx-chat backend game engine against its specification.

The development shallowly embeds the two wagering mini-game services
(`src/services/dicebotService.js` and `src/services/lowcardService.js`)
together with the command handlers that drive them.  Stateful Redis /
SQL interaction is modelled as explicit state passing over a per-room
store; JavaScript numbers appearing as credit amounts, pots and ids are
modelled as `Nat` (the code only ever manipulates non-negative integers
in these positions); `Date.now()` is passed in as an explicit `now`
argument; random dice rolls and card draws are passed in as explicit
arguments so that every code path is a deterministic function of its
inputs.
-/

namespace Migx

/-! ## Ledger

A user's balance has a main part (the `users.credits` SQL column,
mirrored in the Redis cache) and a tagged promotional part managed by
`merchantTagService` (a module outside the sources at hand; it is
modelled from the spec, see `consumeForGame`).  The balance table is an
association list `userId ↦ Balance`; SQL `UPDATE ... WHERE id = $u`
becomes a row-wise map over entries with key `u`. -/

structure Balance where
  tagged : Nat
  main : Nat
deriving Repr, DecidableEq

abbrev BalMap := List (Nat × Balance)

/-- First row with the given user id, defaulting to a zero balance
(`SELECT credits FROM users WHERE id = $1` with an empty result is read
as 0 by `getUserCredits`). -/
def getBal (bs : BalMap) (u : Nat) : Balance :=
  match bs.find? (fun p => p.1 == u) with
  | some p => p.2
  | none => ⟨0, 0⟩

/-- Whether a row for the given user id exists. -/
def present (bs : BalMap) (u : Nat) : Bool :=
  bs.any (fun p => p.1 == u)

/-- Mirror of `addCredits`: `UPDATE users SET credits = credits + $1
WHERE id = $2` — increments the main balance of every row keyed by `u`
(a no-op when the user has no row, in which case the source reports
failure; the claims below only use it on present users). -/
def addCredits (bs : BalMap) (u : Nat) (amount : Nat) : BalMap :=
  bs.map (fun p => if p.1 == u then (p.1, { p.2 with main := p.2.main + amount }) else p)

/-- Mirror of the conditional decrement `UPDATE users SET credits =
credits - $1 WHERE id = $2 AND credits >= $1 RETURNING credits`:
decrements rows keyed by `u` whose main balance covers `amount`. -/
def deductMain (bs : BalMap) (u : Nat) (amount : Nat) : BalMap :=
  bs.map (fun p =>
    if p.1 == u && amount ≤ p.2.main then (p.1, { p.2 with main := p.2.main - amount }) else p)

/-- Modelled from the spec: `merchantTagService.consumeForGame` is not
among the sources; §4.4 of the spec says the pre-deduction stage "may
consume from a separate tagged sub-balance (promotional credits usable
only for wagering) before touching the main balance".  It therefore
consumes `min tagged amount` from the user's tagged sub-balance and
reports the consumed amount and the remainder still to be taken from
the main balance. -/
def consumeForGame (bs : BalMap) (u : Nat) (amount : Nat) : (Nat × Nat) × BalMap :=
  let used := min (getBal bs u).tagged amount
  (⟨used, amount - used⟩,
    bs.map (fun p => if p.1 == u then (p.1, { p.2 with tagged := p.2.tagged - used }) else p))

structure DeductResult where
  success : Bool
  balance : Nat
  usedTaggedCredits : Nat
deriving Repr, DecidableEq

/-- Mirror of `deductCredits` (identical in `dicebotService.js` lines
68–122 and `lowcardService.js` lines 79–133): consume the tagged
sub-balance first, report success if nothing remains, otherwise check
the cached main balance and perform the conditional SQL decrement. -/
def deductCredits (bs : BalMap) (u : Nat) (amount : Nat) : DeductResult × BalMap :=
  let taggedBalance := (getBal bs u).tagged
  if taggedBalance > 0 then
    let r := consumeForGame bs u amount
    let usedTaggedCredits := r.1.1
    let remainingAmount := r.1.2
    let bs1 := r.2
    if remainingAmount = 0 then
      (⟨true, (getBal bs1 u).main, usedTaggedCredits⟩, bs1)
    else
      let current := (getBal bs1 u).main
      if current < remainingAmount then
        (⟨false, current, usedTaggedCredits⟩, bs1)
      else
        let bs2 := deductMain bs1 u remainingAmount
        (⟨true, current - remainingAmount, usedTaggedCredits⟩, bs2)
  else
    if amount = 0 then
      (⟨true, (getBal bs u).main, 0⟩, bs)
    else
      let current := (getBal bs u).main
      if current < amount then
        (⟨false, current, 0⟩, bs)
      else
        (⟨true, current - amount, 0⟩, deductMain bs u amount)

/-! ## Shared game-session pieces -/

inductive GStatus
  | waiting
  | playing
  | finished
deriving Repr, DecidableEq

/-- In-place mutation of the first list element satisfying a predicate
(the JavaScript pattern `const x = xs.find(q); ...mutate x...`, where
the found object aliases the array slot). -/
def updateFirst {α : Type} (q : α → Bool) (f : α → α) : List α → List α
  | [] => []
  | a :: as => if q a then f a :: as else a :: updateFirst q f as

/-! ## Dice variant (`dicebotService.js`) -/

namespace Dice

def JOIN_TIMEOUT : Nat := 30000
def MIN_ENTRY : Nat := 1
def MAX_ENTRY : Nat := 999999999
def HOUSE_FEE_PERCENT : Nat := 10

structure BotTarget where
  die1 : Nat
  die2 : Nat
  total : Nat
deriving Repr, DecidableEq

structure Player where
  userId : Nat
  username : String
  isEliminated : Bool
  hasRolled : Bool
  die1 : Option Nat
  die2 : Option Nat
  total : Option Nat
  isIn : Option Bool
  hasImmunity : Bool
  earnedImmunity : Bool
deriving Repr, DecidableEq

/-- The player record pushed by `startGame` / `joinGame`. -/
def newPlayer (userId : Nat) (username : String) : Player :=
  ⟨userId, username, false, false, none, none, none, none, false, false⟩

structure Game where
  id : Nat
  status : GStatus
  entryAmount : Nat
  pot : Nat
  currentRound : Nat
  botTarget : Option BotTarget
  players : List Player
  startedBy : Nat
  joinDeadline : Nat
  winnerId : Option Nat := none
  winnings : Option Nat := none
  houseFee : Option Nat := none
deriving Repr, DecidableEq

/-- Per-room store: the `dicebot:bot:` flag, the `dicebot:game:`
document, the `dicebot:lock:` key and the credit ledger. -/
structure Store where
  botFlag : Bool
  lockHeld : Bool
  game : Option Game
  balances : BalMap
deriving Repr, DecidableEq

inductive StartR
  | lockBusy
  | inProgress
  | belowMin
  | insufficient (needed : Nat)
  | ok (gameId : Nat) (newBalance : Nat)
deriving Repr, DecidableEq

def StartR.success : StartR → Bool
  | .ok _ _ => true
  | _ => false

/-- Whether the existing game document blocks a new start: the source
parses `existingGame` and refuses when its status is `waiting` or
`playing` (lines 276–281). -/
def blocksStart (og : Option Game) : Bool :=
  match og with
  | some g => g.status == GStatus.waiting || g.status == GStatus.playing
  | none => false

/-- Mirror of `startGame` (lines 265–339).  `amount` is the parsed
wager; the source computes `parseInt(amount) || MIN_ENTRY`, so a
missing/zero amount is modelled as `0 ↦ MIN_ENTRY`.  `now` stands for
`Date.now()` (used both for the game id and the join deadline). -/
def startGame (s : Store) (userId : Nat) (username : String) (amount : Nat) (now : Nat) :
    StartR × Store :=
  if s.lockHeld then (.lockBusy, s)
  else if blocksStart s.game then (.inProgress, s)
  else
    let requestedAmount := if amount = 0 then MIN_ENTRY else amount
    if requestedAmount < MIN_ENTRY then (.belowMin, s)
    else
      let entryAmount := min MAX_ENTRY requestedAmount
      let d := deductCredits s.balances userId entryAmount
      if d.1.success = false then
        (.insufficient entryAmount, { s with balances := d.2 })
      else
        let game : Game :=
          { id := now
            status := .waiting
            entryAmount := entryAmount
            pot := entryAmount
            currentRound := 0
            botTarget := none
            players := [newPlayer userId username]
            startedBy := userId
            joinDeadline := now + JOIN_TIMEOUT }
        (.ok now d.1.balance, { s with game := some game, balances := d.2 })

inductive JoinR
  | noGame
  | inProgress
  | joinEnded
  | alreadyJoined
  | insufficient (needed : Nat)
  | ok (playerCount : Nat) (pot : Nat) (newBalance : Nat)
deriving Repr, DecidableEq

def JoinR.success : JoinR → Bool
  | .ok _ _ _ => true
  | _ => false

/-- Mirror of `joinGame` (lines 341–396). -/
def joinGame (s : Store) (userId : Nat) (username : String) (now : Nat) : JoinR × Store :=
  match s.game with
  | none => (.noGame, s)
  | some g =>
    if g.status ≠ .waiting then (.inProgress, s)
    else if g.joinDeadline < now then (.joinEnded, s)
    else if (g.players.find? (fun p => p.userId == userId)).isSome then (.alreadyJoined, s)
    else
      let d := deductCredits s.balances userId g.entryAmount
      if d.1.success = false then
        (.insufficient g.entryAmount, { s with balances := d.2 })
      else
        let g2 := { g with
          players := g.players ++ [newPlayer userId username]
          pot := g.pot + g.entryAmount }
        (.ok g2.players.length g2.pot d.1.balance,
          { s with game := some g2, balances := d.2 })

inductive BeginR
  | noGame
  | cancelled
  | started (playerCount : Nat) (pot : Nat)
deriving Repr, DecidableEq

/-- Refund loop bodies: `for (const player of game.players) await
addCredits(player.userId, game.entryAmount, ...)`. -/
def refundAll (bs : BalMap) (ps : List Player) (amount : Nat) : BalMap :=
  ps.foldl (fun b p => addCredits b p.userId amount) bs

/-- Mirror of `beginGame` (lines 398–433): fired by the join timer;
with fewer than 2 players it refunds everyone and deletes the game,
otherwise it flips the status to `playing`. -/
def beginGame (s : Store) : Option BeginR × Store :=
  match s.game with
  | none => (none, s)
  | some g =>
    if g.status ≠ .waiting then (none, s)
    else if g.players.length < 2 then
      (some .cancelled,
        { s with game := none, balances := refundAll s.balances g.players g.entryAmount })
    else
      let g2 := { g with status := GStatus.playing, currentRound := 0 }
      (some (.started g2.players.length g2.pot), { s with game := some g2 })

/-- Mirror of `startNextRound` (lines 435–476): bump the round counter,
roll the bot's target dice (`d1`, `d2` stand for the two random dice),
convert each surviving player's earned immunity into active immunity
and reset the per-round transient fields. -/
def startNextRound (s : Store) (d1 d2 : Nat) : Option (Nat × BotTarget) × Store :=
  match s.game with
  | none => (none, s)
  | some g =>
    if g.status ≠ .playing then (none, s)
    else
      let target : BotTarget := ⟨d1, d2, d1 + d2⟩
      let g2 := { g with
        currentRound := g.currentRound + 1
        botTarget := some target
        players := g.players.map (fun p =>
          if p.isEliminated then p
          else
            { p with
              hasImmunity := if p.earnedImmunity then true else p.hasImmunity
              earnedImmunity := if p.earnedImmunity then false else p.earnedImmunity
              hasRolled := false
              die1 := none
              die2 := none
              total := none
              isIn := none }) }
      (some (g2.currentRound, target), { s with game := some g2 })

inductive RollR
  | noGame
  | notPlaying
  | noTarget
  | notInGame
  | alreadyRolled
  | ok (die1 die2 total : Nat) (isIn : Bool) (gotDoubleSix : Bool) (usedImmunity : Bool)
      (allRolled : Bool)
deriving Repr, DecidableEq

/-- Mirror of `rollPlayerDice` (lines 478–558); `d1`, `d2` stand for
the player's two random dice. -/
def rollPlayerDice (s : Store) (userId : Nat) (d1 d2 : Nat) : RollR × Store :=
  match s.game with
  | none => (.noGame, s)
  | some g =>
    if g.status ≠ .playing then (.notPlaying, s)
    else
      match g.botTarget with
      | none => (.noTarget, s)
      | some target =>
        match g.players.find? (fun p => p.userId == userId && !p.isEliminated) with
        | none => (.notInGame, s)
        | some player =>
          if player.hasRolled then (.alreadyRolled, s)
          else
            let total := d1 + d2
            let meetsTarget := target.total ≤ total
            let gotDoubleSix := d1 == 6 && d2 == 6
            let isIn := meetsTarget || player.hasImmunity
            let p2 := { player with
              hasRolled := true
              die1 := some d1
              die2 := some d2
              total := some total
              earnedImmunity := if gotDoubleSix then true else player.earnedImmunity
              isIn := some isIn }
            let g2 := { g with
              players := updateFirst (fun p => p.userId == userId && !p.isEliminated)
                (fun _ => p2) g.players }
            let activePlayers := g2.players.filter (fun p => !p.isEliminated)
            let allRolled := activePlayers.all (fun p => p.hasRolled)
            (.ok d1 d2 total isIn gotDoubleSix (player.hasImmunity && !meetsTarget) allRolled,
              { s with game := some g2 })

inductive FinR
  | noGame
  | noWinner
  | gameOver (winnerId : Nat) (pot : Nat) (winnings : Nat) (houseFee : Nat)
deriving Repr, DecidableEq

/-- Mirror of `finalizeGame` (lines 696–740): the first non-eliminated
player wins the pot minus the floor-rounded house fee
(`Math.floor(game.pot * HOUSE_FEE_PERCENT / 100)`, exact in integer
arithmetic for pots below 2⁵³ / 10), the winner is credited, and the
finished game is retained briefly before expiry. -/
def finalizeGame (s : Store) : FinR × Store :=
  match s.game with
  | none => (.noGame, s)
  | some g =>
    match g.players.find? (fun p => !p.isEliminated) with
    | none => (.noWinner, { s with game := none })
    | some winner =>
      let houseFee := g.pot * HOUSE_FEE_PERCENT / 100
      let winnings := g.pot - houseFee
      let bs := addCredits s.balances winner.userId winnings
      let g2 := { g with
        status := GStatus.finished
        winnerId := some winner.userId
        winnings := some winnings
        houseFee := some houseFee }
      (.gameOver winner.userId g.pot winnings houseFee, { s with game := some g2, balances := bs })

inductive TallyR
  | allFailed (nextRound : Nat)
  | roundComplete (eliminatedCount : Nat) (remaining : Nat) (nextRound : Nat)
  | finished (r : FinR)
deriving Repr, DecidableEq

/-- Mirror of `tallyRound` (lines 627–694): split the non-eliminated
players by the outcome of the round, clear every active player's
immunity, replay the round if nobody survived, otherwise mark the
losers eliminated and either finalize (one player left) or announce the
next round. -/
def tallyRound (s : Store) : Option TallyR × Store :=
  match s.game with
  | none => (none, s)
  | some g =>
    if g.status ≠ .playing then (none, s)
    else
      let activeOf : List Player → List Player := fun ps => ps.filter (fun p => !p.isEliminated)
      let survivors := (activeOf g.players).filter (fun p => p.isIn == some true)
      let eliminated := (activeOf g.players).filter (fun p => p.isIn == some false)
      let g1 := { g with
        players := g.players.map (fun (p : Player) =>
          if p.isEliminated then p else { p with hasImmunity := false }) }
      if survivors.length = 0 then
        let g2 := { g1 with
          botTarget := none
          players := g1.players.map (fun (p : Player) =>
            if p.isEliminated then p
            else { p with hasRolled := false, die1 := none, die2 := none, total := none,
                          isIn := none }) }
        (some (.allFailed (g.currentRound + 1)), { s with game := some g2 })
      else
        let g2 := { g1 with
          players := g1.players.map (fun (p : Player) =>
            if !p.isEliminated && p.isIn == some false then { p with isEliminated := true }
            else p) }
        let remaining := activeOf g2.players
        if remaining.length = 1 then
          let r := finalizeGame { s with game := some g2 }
          (some (.finished r.1), r.2)
        else
          let g3 := { g2 with botTarget := none }
          (some (.roundComplete eliminated.length remaining.length (g.currentRound + 1)),
            { s with game := some g3 })

inductive StopR
  | noGame
  | alreadyFinished
  | notAllowed
  | ok
deriving Repr, DecidableEq

/-- Mirror of `cancelGame` (lines 742–766): refuse on finished games,
refund every non-eliminated player the entry amount and delete the
session. -/
def cancelGame (s : Store) : StopR × Store :=
  match s.game with
  | none => (.noGame, s)
  | some g =>
    if g.status = .finished then (.alreadyFinished, s)
    else
      let bs := g.players.foldl
        (fun b p => if !p.isEliminated then addCredits b p.userId g.entryAmount else b)
        s.balances
      (.ok, { s with game := none, balances := bs })

/-- Mirror of `removeBotFromRoom` (lines 217–243): if a game document
exists and its status is `waiting`, refund every listed player; then
delete both the bot flag and the game document. -/
def removeBotFromRoom (s : Store) : StopR × Store :=
  if !s.botFlag then (.noGame, s)
  else
    let bs := match s.game with
      | some g =>
        if g.status = .waiting then refundAll s.balances g.players g.entryAmount
        else s.balances
      | none => s.balances
    (.ok, { s with botFlag := false, game := none, balances := bs })

end Dice

/-! ## Card variant (`lowcardService.js`) -/

namespace Lowcard

def JOIN_TIMEOUT : Nat := 30000
def MIN_ENTRY : Nat := 1
def MAX_ENTRY : Nat := 999999999
def MIN_ENTRY_BIG_GAME : Nat := 50

inductive Suit
  | h
  | d
  | c
  | s
deriving Repr, DecidableEq

/-- A playing card; the derived `code` / `image` strings of the source
are presentation only and omitted. -/
structure Card where
  value : Nat
  suit : Suit
deriving Repr, DecidableEq

structure Player where
  userId : Nat
  username : String
  isEliminated : Bool
  hasDrawn : Bool
  currentCard : Option Card
deriving Repr, DecidableEq

def newPlayer (userId : Nat) (username : String) : Player :=
  ⟨userId, username, false, false, none⟩

/-- The card value read off a player (`p.currentCard.value`; only ever
used on players that hold a card). -/
def cardVal (p : Player) : Nat :=
  (p.currentCard.map Card.value).getD 0

structure Game where
  id : Nat
  status : GStatus
  entryAmount : Nat
  pot : Nat
  currentRound : Nat
  players : List Player
  startedBy : Nat
  joinDeadline : Nat
  countdownEndsAt : Nat := 0
  roundDeadline : Nat := 0
  previousTiedLosers : Option (List Nat) := none
deriving Repr, DecidableEq

/-- Per-room store: the `lowcard:bot:` flag, the `lowcard:game:`
document, the `lowcard:lock:` key, the `lowcard:deck:` list and the
credit ledger. -/
structure Store where
  botFlag : Bool
  lockHeld : Bool
  game : Option Game
  deck : Option (List Card)
  balances : BalMap
deriving Repr, DecidableEq

inductive StartR
  | lockBusy
  | inProgress
  | belowMin
  | aboveMax
  | insufficient (needed : Nat)
  | ok (gameId : Nat) (newBalance : Nat)
deriving Repr, DecidableEq

def StartR.success : StartR → Bool
  | .ok _ _ => true
  | _ => false

/-- Whether the existing game document blocks a new start (lines
281–287). -/
def blocksStart (og : Option Game) : Bool :=
  match og with
  | some g => g.status == GStatus.waiting || g.status == GStatus.playing
  | none => false

/-- Mirror of `startGame` (lines 270–354).  `isBigGame` abstracts the
room-name lookup (`roomName.toLowerCase().includes('big game')`);
`amount = 0` models a missing / unparsable amount argument
(`parseInt(amount) || minEntry`). -/
def startGame (s : Store) (userId : Nat) (username : String) (amount : Nat)
    (isBigGame : Bool) (now : Nat) : StartR × Store :=
  if s.lockHeld then (.lockBusy, s)
  else if blocksStart s.game then (.inProgress, s)
  else
    let minEntry := if isBigGame then MIN_ENTRY_BIG_GAME else MIN_ENTRY
    let requestedAmount := if amount = 0 then minEntry else amount
    if requestedAmount < minEntry then (.belowMin, s)
    else if !isBigGame && decide (MAX_ENTRY < requestedAmount) then (.aboveMax, s)
    else
      let entryAmount := requestedAmount
      let d := deductCredits s.balances userId entryAmount
      if d.1.success = false then
        (.insufficient entryAmount, { s with balances := d.2 })
      else
        let game : Game :=
          { id := now
            status := .waiting
            entryAmount := entryAmount
            pot := entryAmount
            currentRound := 0
            players := [newPlayer userId username]
            startedBy := userId
            joinDeadline := now + JOIN_TIMEOUT }
        (.ok now d.1.balance, { s with game := some game, balances := d.2 })

inductive JoinR
  | noGame
  | inProgress
  | joinEnded
  | alreadyJoined
  | insufficient (needed : Nat)
  | ok (playerCount : Nat) (pot : Nat) (newBalance : Nat)
deriving Repr, DecidableEq

def JoinR.success : JoinR → Bool
  | .ok _ _ _ => true
  | _ => false

/-- Mirror of `joinGame` (lines 356–406). -/
def joinGame (s : Store) (userId : Nat) (username : String) (now : Nat) : JoinR × Store :=
  match s.game with
  | none => (.noGame, s)
  | some g =>
    if g.status ≠ .waiting then (.inProgress, s)
    else if g.joinDeadline < now then (.joinEnded, s)
    else if (g.players.find? (fun p => p.userId == userId)).isSome then (.alreadyJoined, s)
    else
      let d := deductCredits s.balances userId g.entryAmount
      if d.1.success = false then
        (.insufficient g.entryAmount, { s with balances := d.2 })
      else
        let g2 := { g with
          players := g.players ++ [newPlayer userId username]
          pot := g.pot + g.entryAmount }
        (.ok g2.players.length g2.pot d.1.balance,
          { s with game := some g2, balances := d.2 })

def refundAll (bs : BalMap) (ps : List Player) (amount : Nat) : BalMap :=
  ps.foldl (fun b p => addCredits b p.userId amount) bs

inductive BeginR
  | noGame
  | cancelled
  | started (playerCount : Nat)
deriving Repr, DecidableEq

def COUNTDOWN_DELAY : Nat := 3000
def DRAW_TIMEOUT : Nat := 20000

/-- Mirror of `beginGame` (lines 408–453).  `freshDeck` stands for the
freshly shuffled deck written by `initializeDeck`. -/
def beginGame (s : Store) (freshDeck : List Card) (now : Nat) : Option BeginR × Store :=
  match s.game with
  | none => (none, s)
  | some g =>
    if g.status ≠ .waiting then (none, s)
    else if g.players.length < 2 then
      (some .cancelled,
        { s with game := none, balances := refundAll s.balances g.players g.entryAmount })
    else
      let g2 := { g with
        status := GStatus.playing
        currentRound := 1
        players := g.players.map (fun (p : Player) =>
          { p with hasDrawn := false, currentCard := none })
        countdownEndsAt := now + COUNTDOWN_DELAY
        roundDeadline := now + COUNTDOWN_DELAY + DRAW_TIMEOUT }
      (some (.started g2.players.length), { s with game := some g2, deck := some freshDeck })

/-- The active set every tally reasons over: the players that are not
eliminated *and* currently hold a card (`game.players.filter(p =>
!p.isEliminated && p.currentCard)`, line 571). -/
def activePlayers (g : Game) : List Player :=
  g.players.filter (fun p => !p.isEliminated && p.currentCard.isSome)

/-- `Math.min(...values)` over a non-empty list (0 on the empty list,
which the callers guard against). -/
def minValue : List Nat → Nat
  | [] => 0
  | v :: vs => vs.foldl Nat.min v

/-- `Math.max(...values)` over a non-empty list. -/
def maxValue : List Nat → Nat
  | [] => 0
  | v :: vs => vs.foldl Nat.max v

inductive TallyR
  | noGame
  | noActive
  | gameOver (winnerId : Nat) (winnings : Nat)
  | tie (tiedIds : List Nat)
  | tieBreakerEliminated (eliminatedIds : List Nat) (remaining : Nat) (nextRound : Nat)
  | eliminated (loserIds : List Nat) (remaining : Nat) (nextRound : Nat)
deriving Repr, DecidableEq

/-- Shared game-over tail of `tallyRound`: the winner is credited the
pot minus the 5 % commission (`Math.floor(game.pot * 0.05)`, which
agrees with `pot * 5 / 100` in exact integer arithmetic for every pot
below ≈9·10¹⁴), the game document is deleted and the deck cleared. -/
def finishWith (s : Store) (g : Game) (winner : Player) : TallyR × Store :=
  let commission := g.pot * 5 / 100
  let winnings := g.pot - commission
  let bs := addCredits s.balances winner.userId winnings
  (.gameOver winner.userId winnings, { s with game := none, deck := none, balances := bs })

/-- Reset of the per-round fields of every non-eliminated player,
performed when a round completes with an elimination. -/
def resetRound (ps : List Player) : List Player :=
  ps.map (fun (p : Player) =>
    if p.isEliminated then p else { p with hasDrawn := false, currentCard := none })

/-- Reset of the tied players only (lines 699–707): a non-eliminated
player appearing among the tied losers loses their card and must
redraw; everyone else keeps this round's card. -/
def resetTied (ps : List Player) (loserIds : List Nat) : List Player :=
  ps.map (fun (p : Player) =>
    if !p.isEliminated && loserIds.any (fun i => i == p.userId) then
      { p with hasDrawn := false, currentCard := none }
    else p)

/-- Elimination of the players named by a list of user ids, one
`findIndex` each (lines 622–628 and 720–725). -/
def elimByIds (ps : List Player) (ids : List Nat) : List Player :=
  ids.foldl
    (fun acc i =>
      updateFirst (fun p => p.userId == i) (fun p => { p with isEliminated := true }) acc)
    ps

/-- The lowest-rank fall-through of `tallyRound` (lines 617–794):
partial ties trigger either the tie-breaker elimination (second
timeout in a row with the same carried losers) or a redraw of the tied
players only; otherwise the lowest card(s) are eliminated and the game
either finishes or moves to the next round. -/
def tallyLowest (s : Store) (g : Game) (isTimedOut : Bool) (now : Nat) : TallyR × Store :=
  let active := activePlayers g
  let lowestValue := minValue (active.map cardVal)
  let losers := active.filter (fun p => cardVal p == lowestValue)
  let tiePartial := decide (1 < losers.length) && decide (losers.length < active.length)
  if tiePartial then
    let prevIds := g.previousTiedLosers.getD []
    if isTimedOut && !prevIds.isEmpty then
      let g1 := { g with players := elimByIds g.players prevIds, previousTiedLosers := none }
      let remaining := g1.players.filter (fun p => !p.isEliminated)
      match remaining with
      | [winner] => finishWith { s with game := some g1 } g1 winner
      | _ =>
        let g2 := { g1 with
          currentRound := g1.currentRound + 1
          players := resetRound g1.players
          countdownEndsAt := now + COUNTDOWN_DELAY
          roundDeadline := now + COUNTDOWN_DELAY + DRAW_TIMEOUT }
        (.tieBreakerEliminated prevIds remaining.length g2.currentRound,
          { s with game := some g2 })
    else
      let tiedIds := losers.map Player.userId
      let g1 := { g with
        previousTiedLosers := some tiedIds
        players := resetTied g.players tiedIds }
      (.tie tiedIds, { s with game := some g1 })
  else
    let g1 := { g with
      players := elimByIds g.players (losers.map Player.userId)
      previousTiedLosers := none }
    let remaining := g1.players.filter (fun p => !p.isEliminated)
    match remaining with
    | [winner] => finishWith { s with game := some g1 } g1 winner
    | _ =>
      let g2 := { g1 with
        currentRound := g1.currentRound + 1
        players := resetRound g1.players
        countdownEndsAt := now + COUNTDOWN_DELAY
        roundDeadline := now + COUNTDOWN_DELAY + DRAW_TIMEOUT }
      (.eliminated (losers.map Player.userId) remaining.length g2.currentRound,
        { s with game := some g2 })

/-- Mirror of `tallyRound` (lines 562–794): with exactly three
card-holding active players and no timeout, a strictly highest card
wins the whole game on the spot; in every other case the lowest-rank
logic of `tallyLowest` applies. -/
def tallyRound (s : Store) (isTimedOut : Bool) (now : Nat) : TallyR × Store :=
  match s.game with
  | none => (.noGame, s)
  | some g =>
    let active := activePlayers g
    if active.length = 0 then (.noActive, s)
    else if active.length == 3 && !isTimedOut then
      let highestValue := maxValue (active.map cardVal)
      let winners := active.filter (fun p => cardVal p == highestValue)
      match winners with
      | [winner] => finishWith s g winner
      | _ => tallyLowest s g isTimedOut now
    else tallyLowest s g isTimedOut now

inductive StopR
  | noGame
  | cannotStop
  | ok
deriving Repr, DecidableEq

/-- Mirror of `stopGame` (lines 796–819): refuses once the game is
`playing`; otherwise refunds every listed player and deletes the game
and deck. -/
def stopGame (s : Store) : StopR × Store :=
  match s.game with
  | none => (.noGame, s)
  | some g =>
    if g.status = .playing then (.cannotStop, s)
    else
      (.ok, { s with
        game := none
        deck := none
        balances := refundAll s.balances g.players g.entryAmount })

/-- Mirror of `removeBotFromRoom` (lines 228–255): refunds the players
only when the game document exists *and* its status is `waiting`, then
deletes the bot flag, the game document and the deck. -/
def removeBotFromRoom (s : Store) : StopR × Store :=
  if !s.botFlag then (.noGame, s)
  else
    let bs := match s.game with
      | some g =>
        if g.status = .waiting then refundAll s.balances g.players g.entryAmount
        else s.balances
      | none => s.balances
    (.ok, { s with botFlag := false, game := none, deck := none, balances := bs })

end Lowcard

/-! ## Join sequences

`applyJoins` replays a list of join events `(userId, username, now)`
against a store, keeping whatever store each `joinGame` call returns —
successful or not — exactly as the command handler does. -/

def Dice.applyJoins (s : Dice.Store) (evs : List (Nat × String × Nat)) : Dice.Store :=
  evs.foldl (fun st e => (Dice.joinGame st e.1 e.2.1 e.2.2).2) s

def Lowcard.applyJoins (s : Lowcard.Store) (evs : List (Nat × String × Nat)) : Lowcard.Store :=
  evs.foldl (fun st e => (Lowcard.joinGame st e.1 e.2.1 e.2.2).2) s

/-! ## Helper lemmas: dice start / join / begin -/

/-- `joinGame` either leaves the game document untouched (every failure
path) or succeeds and appends exactly one player while adding exactly
the entry amount to the pot. -/
theorem Dice.joinGame_game (s : Store) (u : Nat) (un : String) (now : Nat) :
    (joinGame s u un now).2.game = s.game ∨
    ((joinGame s u un now).1.success = true ∧
      ∃ g, s.game = some g ∧
        (joinGame s u un now).2.game =
          some { g with players := g.players ++ [newPlayer u un],
                        pot := g.pot + g.entryAmount }) := by
  rcases hg : s.game with _ | g
  · left; simp [joinGame, hg]
  · simp only [joinGame, hg]
    repeat' split
    all_goals first
      | (left; exact hg)
      | (left; rfl)
      | (right; exact ⟨rfl, g, rfl, rfl⟩)

/-- A successful `startGame` stores a fresh waiting session whose pot is
the entry amount and whose only player is the starter. -/
theorem Dice.startGame_ok_game (s : Store) (u : Nat) (un : String) (amt now : Nat)
    (h : (startGame s u un amt now).1.success = true) :
    ∃ g, (startGame s u un amt now).2.game = some g ∧
      g.status = GStatus.waiting ∧ g.pot = g.entryAmount ∧
      g.players = [newPlayer u un] ∧ g.joinDeadline = now + JOIN_TIMEOUT := by
  revert h
  simp only [startGame]
  repeat' split
  all_goals intro h
  all_goals first
    | (refine ⟨_, rfl, ?_, ?_, ?_, ?_⟩ <;> rfl)
    | simp [StartR.success] at h

/-- `beginGame`'s `started` outcome only flips the status to `playing`
and resets the round counter: players and pot carry over unchanged. -/
theorem Dice.beginGame_started (s s3 : Store) (c p : Nat)
    (h : beginGame s = (some (BeginR.started c p), s3)) :
    ∃ g, s.game = some g ∧
      s3.game = some { g with status := GStatus.playing, currentRound := 0 } := by
  revert h
  rcases hg : s.game with _ | g
  · intro h; simp [beginGame, hg] at h
  · simp only [beginGame, hg]
    split
    · intro h; cases h
    · split
      · intro h; cases h
      · intro h
        refine ⟨g, rfl, ?_⟩
        cases h
        rfl

/-- Card-variant analogue of `Dice.joinGame_game`. -/
theorem Lowcard.joinGame_game_card (s : Store) (u : Nat) (un : String) (now : Nat) :
    (joinGame s u un now).2.game = s.game ∨
    ((joinGame s u un now).1.success = true ∧
      ∃ g, s.game = some g ∧
        (joinGame s u un now).2.game =
          some { g with players := g.players ++ [newPlayer u un],
                        pot := g.pot + g.entryAmount }) := by
  rcases hg : s.game with _ | g
  · left; simp [joinGame, hg]
  · simp only [joinGame, hg]
    repeat' split
    all_goals first
      | (left; exact hg)
      | (left; rfl)
      | (right; exact ⟨rfl, g, rfl, rfl⟩)

/-- Card-variant analogue of `Dice.startGame_ok_game`. -/
theorem Lowcard.startGame_ok_game_card (s : Store) (u : Nat) (un : String) (amt : Nat)
    (isBig : Bool) (now : Nat)
    (h : (startGame s u un amt isBig now).1.success = true) :
    ∃ g, (startGame s u un amt isBig now).2.game = some g ∧
      g.status = GStatus.waiting ∧ g.pot = g.entryAmount ∧
      g.players = [newPlayer u un] ∧ g.joinDeadline = now + JOIN_TIMEOUT := by
  revert h
  simp only [startGame]
  repeat' split
  all_goals intro h
  all_goals first
    | (refine ⟨_, rfl, ?_, ?_, ?_, ?_⟩ <;> rfl)
    | simp [StartR.success] at h

/-- Card-variant analogue of `Dice.beginGame_started`: the `started`
outcome flips the status, sets `currentRound` to 1, resets the
per-round player fields and arms the deadlines; the pot and the number
of players carry over unchanged. -/
theorem Lowcard.beginGame_started_card (s s3 : Store) (freshDeck : List Card) (now : Nat) (c : Nat)
    (h : beginGame s freshDeck now = (some (BeginR.started c), s3)) :
    ∃ g, s.game = some g ∧
      s3.game = some { g with
        status := GStatus.playing
        currentRound := 1
        players := g.players.map (fun (p : Player) =>
          { p with hasDrawn := false, currentCard := none })
        countdownEndsAt := now + COUNTDOWN_DELAY
        roundDeadline := now + COUNTDOWN_DELAY + DRAW_TIMEOUT } := by
  revert h
  rcases hg : s.game with _ | g
  · intro h; simp [beginGame, hg] at h
  · simp only [beginGame, hg]
    split
    · intro h; cases h
    · split
      · intro h; cases h
      · intro h
        refine ⟨g, rfl, ?_⟩
        cases h
        rfl

/-- The pot invariant `pot = entryAmount × playerCount` is preserved by
any sequence of join events. -/
theorem Dice.applyJoins_potInv (evs : List (Nat × String × Nat)) :
    ∀ s : Store, (∀ g, s.game = some g → g.pot = g.entryAmount * g.players.length) →
      ∀ g, (applyJoins s evs).game = some g → g.pot = g.entryAmount * g.players.length := by
  induction evs with
  | nil => intro s h; simpa [applyJoins] using h
  | cons e es ih =>
    intro s h
    have hstep : ∀ g, (joinGame s e.1 e.2.1 e.2.2).2.game = some g →
        g.pot = g.entryAmount * g.players.length := by
      intro g hgame
      rcases joinGame_game s e.1 e.2.1 e.2.2 with heq | ⟨-, g0, hs0, heq⟩
      · exact h g (heq ▸ hgame)
      · rw [heq] at hgame
        cases hgame
        have h0 := h g0 hs0
        simp [h0, Nat.mul_succ]
    have : applyJoins s (e :: es) = applyJoins (joinGame s e.1 e.2.1 e.2.2).2 es := rfl
    rw [this]
    exact ih _ hstep

/-- Card-variant analogue of `Dice.applyJoins_potInv`. -/
theorem Lowcard.applyJoins_potInv_card (evs : List (Nat × String × Nat)) :
    ∀ s : Store, (∀ g, s.game = some g → g.pot = g.entryAmount * g.players.length) →
      ∀ g, (applyJoins s evs).game = some g → g.pot = g.entryAmount * g.players.length := by
  induction evs with
  | nil => intro s h; simpa [applyJoins] using h
  | cons e es ih =>
    intro s h
    have hstep : ∀ g, (joinGame s e.1 e.2.1 e.2.2).2.game = some g →
        g.pot = g.entryAmount * g.players.length := by
      intro g hgame
      rcases joinGame_game_card s e.1 e.2.1 e.2.2 with heq | ⟨-, g0, hs0, heq⟩
      · exact h g (heq ▸ hgame)
      · rw [heq] at hgame
        cases hgame
        have h0 := h g0 hs0
        simp [h0, Nat.mul_succ]
    have : applyJoins s (e :: es) = applyJoins (joinGame s e.1 e.2.1 e.2.2).2 es := rfl
    rw [this]
    exact ih _ hstep

/-- A successful dice join appends exactly one player and adds exactly
the entry amount to the pot. -/
theorem Dice.joinGame_ok_append (s : Store) (u : Nat) (un : String) (now : Nat)
    (g : Game) (hg : s.game = some g)
    (hok : (joinGame s u un now).1.success = true) :
    (joinGame s u un now).2.game =
      some { g with players := g.players ++ [newPlayer u un],
                    pot := g.pot + g.entryAmount } := by
  revert hok
  simp only [joinGame, hg]
  repeat' split
  all_goals intro hok
  all_goals first
    | rfl
    | simp [JoinR.success] at hok

/-- A successful card join appends exactly one player and adds exactly
the entry amount to the pot. -/
theorem Lowcard.joinGame_ok_append_card (s : Store) (u : Nat) (un : String) (now : Nat)
    (g : Game) (hg : s.game = some g)
    (hok : (joinGame s u un now).1.success = true) :
    (joinGame s u un now).2.game =
      some { g with players := g.players ++ [newPlayer u un],
                    pot := g.pot + g.entryAmount } := by
  revert hok
  simp only [joinGame, hg]
  repeat' split
  all_goals intro hok
  all_goals first
    | rfl
    | simp [JoinR.success] at hok

/-- C1: at the waiting → playing transition after one successful start
and any sequence of joins, the pot equals entryAmount × playerCount;
a successful start initialises the pot to the entry amount with the
starter as sole player, and each successful join appends exactly one
player and adds exactly the entry amount to the pot.  Stated for both
the dice and the card variant. -/
theorem C1_pot_invariant_at_transition
    (sd : Dice.Store) (sl : Lowcard.Store) (u : Nat) (un : String) (amt now : Nat)
    (isBig : Bool) (evs : List (Nat × String × Nat))
    (freshDeck : List Lowcard.Card) (tnow : Nat) :
    -- dice variant
    ((Dice.startGame sd u un amt now).1.success = true →
      (∀ g, (Dice.applyJoins (Dice.startGame sd u un amt now).2 evs).game = some g →
          g.pot = g.entryAmount * g.players.length) ∧
      (∀ c p s3 g,
          Dice.beginGame (Dice.applyJoins (Dice.startGame sd u un amt now).2 evs)
            = (some (Dice.BeginR.started c p), s3) →
          s3.game = some g →
          g.status = GStatus.playing ∧ g.pot = g.entryAmount * g.players.length)) ∧
    -- each successful dice join appends exactly one player and adds the entry amount
    (∀ g, sd.game = some g → (Dice.joinGame sd u un now).1.success = true →
      (Dice.joinGame sd u un now).2.game =
        some { g with players := g.players ++ [Dice.newPlayer u un],
                      pot := g.pot + g.entryAmount }) ∧
    -- card variant
    ((Lowcard.startGame sl u un amt isBig now).1.success = true →
      (∀ g, (Lowcard.applyJoins (Lowcard.startGame sl u un amt isBig now).2 evs).game = some g →
          g.pot = g.entryAmount * g.players.length) ∧
      (∀ c s3 g,
          Lowcard.beginGame (Lowcard.applyJoins (Lowcard.startGame sl u un amt isBig now).2 evs)
            freshDeck tnow
            = (some (Lowcard.BeginR.started c), s3) →
          s3.game = some g →
          g.status = GStatus.playing ∧ g.pot = g.entryAmount * g.players.length)) ∧
    -- each successful card join appends exactly one player and adds the entry amount
    (∀ g, sl.game = some g → (Lowcard.joinGame sl u un now).1.success = true →
      (Lowcard.joinGame sl u un now).2.game =
        some { g with players := g.players ++ [Lowcard.newPlayer u un],
                      pot := g.pot + g.entryAmount }) := by
  refine ⟨?_, ?_, ?_, ?_⟩
  · intro hok
    obtain ⟨g0, hg0, -, hpot0, hps0, -⟩ := Dice.startGame_ok_game sd u un amt now hok
    have hbase : ∀ g, (Dice.startGame sd u un amt now).2.game = some g →
        g.pot = g.entryAmount * g.players.length := by
      intro g hg
      rw [hg0] at hg
      cases hg
      simp [hpot0, hps0]
    have hinv := Dice.applyJoins_potInv evs _ hbase
    refine ⟨hinv, ?_⟩
    intro c p s3 g hbeg hs3
    obtain ⟨g1, hg1, hg3⟩ := Dice.beginGame_started _ s3 c p hbeg
    rw [hg3] at hs3
    cases hs3
    exact ⟨rfl, by simpa using hinv g1 hg1⟩
  · intro g hg hok
    exact Dice.joinGame_ok_append sd u un now g hg hok
  · intro hok
    obtain ⟨g0, hg0, -, hpot0, hps0, -⟩ := Lowcard.startGame_ok_game_card sl u un amt isBig now hok
    have hbase : ∀ g, (Lowcard.startGame sl u un amt isBig now).2.game = some g →
        g.pot = g.entryAmount * g.players.length := by
      intro g hg
      rw [hg0] at hg
      cases hg
      simp [hpot0, hps0]
    have hinv := Lowcard.applyJoins_potInv_card evs _ hbase
    refine ⟨hinv, ?_⟩
    intro c s3 g hbeg hs3
    obtain ⟨g1, hg1, hg3⟩ := Lowcard.beginGame_started_card _ s3 freshDeck tnow c hbeg
    rw [hg3] at hs3
    cases hs3
    exact ⟨rfl, by simpa using hinv g1 hg1⟩
  · intro g hg hok
    exact Lowcard.joinGame_ok_append_card sl u un now g hg hok

/-! ## Sample stores for concrete evaluations -/

def sampleBal : BalMap :=
  [(1, ⟨0, 1000⟩), (2, ⟨0, 1000⟩), (3, ⟨0, 1000⟩), (4, ⟨0, 1000⟩)]

def Dice.sample0 : Store := ⟨true, false, none, sampleBal⟩

def Lowcard.sample0 : Store := ⟨true, false, none, none, sampleBal⟩

/-- Witness for C1: a concrete start by user 1 with amount 100 followed
by a join of user 2; the pot invariant holds at the transition fired by
`beginGame`. -/
theorem C1_pot_invariant_witness :
    (Dice.startGame Dice.sample0 1 "a" 100 5).1.success = true ∧
    (Lowcard.startGame Lowcard.sample0 1 "a" 100 false 5).1.success = true ∧
    ∃ g, (Dice.beginGame
        (Dice.applyJoins (Dice.startGame Dice.sample0 1 "a" 100 5).2 [(2, "b", 10)])).2.game
          = some g ∧
      g.status = GStatus.playing ∧ g.pot = g.entryAmount * g.players.length := by
  have h := C1_pot_invariant_at_transition Dice.sample0 Lowcard.sample0 1 "a" 100 5 false
    [(2, "b", 10)] [] 20
  refine ⟨by decide, by decide, ?_⟩
  have h1 := (h.1 (by decide)).2
  exact ⟨_, rfl, h1 2 200 _ _ rfl rfl⟩

/-- C4: while a session with status `waiting` or `playing` exists in
the room, a start command never creates a second session: `startGame`
reports failure and returns the store — game document included —
entirely unchanged, in both variants. -/
theorem C4_start_mutual_exclusion
    (sd : Dice.Store) (sl : Lowcard.Store) (gd : Dice.Game) (gl : Lowcard.Game)
    (u : Nat) (un : String) (amt now : Nat) (isBig : Bool)
    (hgd : sd.game = some gd)
    (hd : gd.status = GStatus.waiting ∨ gd.status = GStatus.playing)
    (hgl : sl.game = some gl)
    (hl : gl.status = GStatus.waiting ∨ gl.status = GStatus.playing) :
    ((Dice.startGame sd u un amt now).1.success = false ∧
      (Dice.startGame sd u un amt now).2 = sd) ∧
    ((Lowcard.startGame sl u un amt isBig now).1.success = false ∧
      (Lowcard.startGame sl u un amt isBig now).2 = sl) := by
  have hbd : Dice.blocksStart sd.game = true := by
    rw [hgd]; rcases hd with h | h <;> simp [Dice.blocksStart, h]
  have hbl : Lowcard.blocksStart sl.game = true := by
    rw [hgl]; rcases hl with h | h <;> simp [Lowcard.blocksStart, h]
  constructor
  · by_cases hlk : sd.lockHeld = true
    · simp [Dice.startGame, hlk, Dice.StartR.success]
    · simp [Dice.startGame, hlk, hbd, Dice.StartR.success]
  · by_cases hlk : sl.lockHeld = true
    · simp [Lowcard.startGame, hlk, Lowcard.StartR.success]
    · simp [Lowcard.startGame, hlk, hbl, Lowcard.StartR.success]

/-- Concrete waiting dice game used by several witnesses. -/
def Dice.gameW : Game :=
  { id := 5, status := GStatus.waiting, entryAmount := 100, pot := 100,
    currentRound := 0, botTarget := none, players := [newPlayer 1 "a"],
    startedBy := 1, joinDeadline := 30005 }

def Dice.sampleW : Store := ⟨true, false, some gameW, sampleBal⟩

/-- Concrete waiting card game used by several witnesses. -/
def Lowcard.gameW : Game :=
  { id := 5, status := GStatus.waiting, entryAmount := 100, pot := 100,
    currentRound := 0, players := [newPlayer 1 "a"],
    startedBy := 1, joinDeadline := 30005 }

def Lowcard.sampleW : Store := ⟨true, false, some gameW, none, sampleBal⟩

/-- Witness for C4: a second start against a concrete waiting session
fails and leaves the store untouched, in both variants. -/
theorem C4_start_mutual_exclusion_witness :
    ((Dice.startGame Dice.sampleW 2 "b" 50 10).1.success = false ∧
      (Dice.startGame Dice.sampleW 2 "b" 50 10).2 = Dice.sampleW) ∧
    ((Lowcard.startGame Lowcard.sampleW 2 "b" 50 false 10).1.success = false ∧
      (Lowcard.startGame Lowcard.sampleW 2 "b" 50 false 10).2 = Lowcard.sampleW) :=
  C4_start_mutual_exclusion Dice.sampleW Lowcard.sampleW Dice.gameW Lowcard.gameW
    2 "b" 50 10 false rfl (Or.inl rfl) rfl (Or.inl rfl)

/-! ## Distinctness of player ids -/

/-- A dice join preserves distinctness of the stored player ids: the
`alreadyJoined` guard runs before the push. -/
theorem Dice.joinGame_nodup (s : Store) (u : Nat) (un : String) (now : Nat)
    (h : ∀ g, s.game = some g → (g.players.map Player.userId).Nodup) :
    ∀ g, (joinGame s u un now).2.game = some g → (g.players.map Player.userId).Nodup := by
  intro g hg
  rcases hgame : s.game with _ | g0
  · revert hg
    simp [joinGame, hgame]
  · revert hg
    simp only [joinGame, hgame]
    repeat' split
    all_goals intro hg
    all_goals try exact h g hg
    all_goals try (cases hg; exact h _ hgame)
    rename_i hstat hdl hfind hded
    cases hg
    have h0 := h g0 hgame
    show ((g0.players ++ [newPlayer u un]).map Player.userId).Nodup
    rw [List.map_append]
    refine List.Nodup.append h0 (by simp) ?_
    intro a ha hb
    simp only [List.map_cons, List.map_nil, List.mem_singleton] at hb
    subst hb
    obtain ⟨p, hp, hpu⟩ := List.mem_map.mp ha
    apply hfind
    refine List.find?_isSome.mpr ⟨p, hp, ?_⟩
    simp [hpu]

/-- A card join preserves distinctness of the stored player ids. -/
theorem Lowcard.joinGame_nodup_card (s : Store) (u : Nat) (un : String) (now : Nat)
    (h : ∀ g, s.game = some g → (g.players.map Player.userId).Nodup) :
    ∀ g, (joinGame s u un now).2.game = some g → (g.players.map Player.userId).Nodup := by
  intro g hg
  rcases hgame : s.game with _ | g0
  · revert hg
    simp [joinGame, hgame]
  · revert hg
    simp only [joinGame, hgame]
    repeat' split
    all_goals intro hg
    all_goals try exact h g hg
    all_goals try (cases hg; exact h _ hgame)
    rename_i hstat hdl hfind hded
    cases hg
    have h0 := h g0 hgame
    show ((g0.players ++ [newPlayer u un]).map Player.userId).Nodup
    rw [List.map_append]
    refine List.Nodup.append h0 (by simp) ?_
    intro a ha hb
    simp only [List.map_cons, List.map_nil, List.mem_singleton] at hb
    subst hb
    obtain ⟨p, hp, hpu⟩ := List.mem_map.mp ha
    apply hfind
    refine List.find?_isSome.mpr ⟨p, hp, ?_⟩
    simp [hpu]

/-- Distinctness of player ids is preserved by any join sequence
(dice). -/
theorem Dice.applyJoins_nodup (evs : List (Nat × String × Nat)) :
    ∀ s : Store, (∀ g, s.game = some g → (g.players.map Player.userId).Nodup) →
      ∀ g, (applyJoins s evs).game = some g → (g.players.map Player.userId).Nodup := by
  induction evs with
  | nil => intro s h; simpa [applyJoins] using h
  | cons e es ih =>
    intro s h
    have : applyJoins s (e :: es) = applyJoins (joinGame s e.1 e.2.1 e.2.2).2 es := rfl
    rw [this]
    exact ih _ (joinGame_nodup s e.1 e.2.1 e.2.2 h)

/-- Distinctness of player ids is preserved by any join sequence
(cards). -/
theorem Lowcard.applyJoins_nodup_card (evs : List (Nat × String × Nat)) :
    ∀ s : Store, (∀ g, s.game = some g → (g.players.map Player.userId).Nodup) →
      ∀ g, (applyJoins s evs).game = some g → (g.players.map Player.userId).Nodup := by
  induction evs with
  | nil => intro s h; simpa [applyJoins] using h
  | cons e es ih =>
    intro s h
    have : applyJoins s (e :: es) = applyJoins (joinGame s e.1 e.2.1 e.2.2).2 es := rfl
    rw [this]
    exact ih _ (joinGame_nodup_card s e.1 e.2.1 e.2.2 h)

/-- C5: a user already present in `players` cannot join again — the
join fails with `alreadyJoined`, no debit and a byte-for-byte unchanged
store; joins after the deadline are refused; a successful join appends
the single new player and leaves the join deadline untouched; and
consequently no player id ever appears twice in `players` after a
successful start followed by any join sequence.  Stated for both
variants. -/
theorem C5_idempotent_join
    (sd : Dice.Store) (sl : Lowcard.Store) (u : Nat) (un : String) (amt now : Nat)
    (isBig : Bool) (evs : List (Nat × String × Nat)) :
    (∀ g, sd.game = some g → g.status = GStatus.waiting → ¬g.joinDeadline < now →
      (g.players.find? (fun p => p.userId == u)).isSome = true →
      Dice.joinGame sd u un now = (Dice.JoinR.alreadyJoined, sd)) ∧
    (∀ g, sd.game = some g → g.status = GStatus.waiting → g.joinDeadline < now →
      Dice.joinGame sd u un now = (Dice.JoinR.joinEnded, sd)) ∧
    (∀ g, sd.game = some g → (Dice.joinGame sd u un now).1.success = true →
      ∃ g2, (Dice.joinGame sd u un now).2.game = some g2 ∧
        g2.players = g.players ++ [Dice.newPlayer u un] ∧
        g2.joinDeadline = g.joinDeadline) ∧
    ((Dice.startGame sd u un amt now).1.success = true →
      ∀ g, (Dice.applyJoins (Dice.startGame sd u un amt now).2 evs).game = some g →
        (g.players.map Dice.Player.userId).Nodup) ∧
    (∀ g, sl.game = some g → g.status = GStatus.waiting → ¬g.joinDeadline < now →
      (g.players.find? (fun p => p.userId == u)).isSome = true →
      Lowcard.joinGame sl u un now = (Lowcard.JoinR.alreadyJoined, sl)) ∧
    (∀ g, sl.game = some g → g.status = GStatus.waiting → g.joinDeadline < now →
      Lowcard.joinGame sl u un now = (Lowcard.JoinR.joinEnded, sl)) ∧
    (∀ g, sl.game = some g → (Lowcard.joinGame sl u un now).1.success = true →
      ∃ g2, (Lowcard.joinGame sl u un now).2.game = some g2 ∧
        g2.players = g.players ++ [Lowcard.newPlayer u un] ∧
        g2.joinDeadline = g.joinDeadline) ∧
    ((Lowcard.startGame sl u un amt isBig now).1.success = true →
      ∀ g, (Lowcard.applyJoins (Lowcard.startGame sl u un amt isBig now).2 evs).game = some g →
        (g.players.map Lowcard.Player.userId).Nodup) := by
  refine ⟨?_, ?_, ?_, ?_, ?_, ?_, ?_, ?_⟩
  · intro g hg hw hdl hdup
    simp [Dice.joinGame, hg, hw, hdl, hdup]
  · intro g hg hw hlate
    simp [Dice.joinGame, hg, hw, hlate]
  · intro g hg hok
    exact ⟨_, Dice.joinGame_ok_append sd u un now g hg hok, rfl, rfl⟩
  · intro hok
    obtain ⟨g0, hg0, -, -, hps0, -⟩ := Dice.startGame_ok_game sd u un amt now hok
    refine Dice.applyJoins_nodup evs _ ?_
    intro g hg
    rw [hg0] at hg
    cases hg
    simp [hps0]
  · intro g hg hw hdl hdup
    simp [Lowcard.joinGame, hg, hw, hdl, hdup]
  · intro g hg hw hlate
    simp [Lowcard.joinGame, hg, hw, hlate]
  · intro g hg hok
    exact ⟨_, Lowcard.joinGame_ok_append_card sl u un now g hg hok, rfl, rfl⟩
  · intro hok
    obtain ⟨g0, hg0, -, -, hps0, -⟩ := Lowcard.startGame_ok_game_card sl u un amt isBig now hok
    refine Lowcard.applyJoins_nodup_card evs _ ?_
    intro g hg
    rw [hg0] at hg
    cases hg
    simp [hps0]

/-- Witness for C5: user 1, already the starter of the concrete waiting
game, is refused on re-join with the store unchanged; a join after the
deadline is refused; and the id list stays duplicate-free after a
concrete start-and-join sequence. -/
theorem C5_idempotent_join_witness :
    (Dice.joinGame Dice.sampleW 1 "a" 10 = (Dice.JoinR.alreadyJoined, Dice.sampleW)) ∧
    (Lowcard.joinGame Lowcard.sampleW 1 "a" 99999 = (Lowcard.JoinR.joinEnded, Lowcard.sampleW)) ∧
    ((Dice.startGame Dice.sample0 1 "a" 100 5).1.success = true ∧
      ∀ g, (Dice.applyJoins (Dice.startGame Dice.sample0 1 "a" 100 5).2
          [(2, "b", 10), (2, "b", 11)]).game = some g →
        (g.players.map Dice.Player.userId).Nodup) := by
  have h1 := C5_idempotent_join Dice.sampleW Lowcard.sampleW 1 "a" 100 10 false []
  have h2 := C5_idempotent_join Dice.sampleW Lowcard.sampleW 1 "a" 100 99999 false []
  have h3 := C5_idempotent_join Dice.sample0 Lowcard.sample0 1 "a" 100 5 false
    [(2, "b", 10), (2, "b", 11)]
  refine ⟨?_, ?_, by decide, ?_⟩
  · exact h1.1 Dice.gameW rfl rfl (by decide) (by decide)
  · exact h2.2.2.2.2.2.1 Lowcard.gameW rfl rfl (by decide)
  · exact h3.2.2.2.1 (by decide)

/-- C2: evaluation of a debit failure with a non-empty tagged
sub-balance.  User 2 holds 30 tagged and 50 main credits and attempts
to join a 100-coin game: the join is refused with the
insufficient-funds signal and records no player — but the 30 tagged
credits consumed by the pre-deduction stage are *not* restored, so part
of the actor's balance has been taken, contradicting the claimed
all-or-nothing failure semantics.  The same `deductCredits` path is
shared by `startGame` and by both variants. -/
theorem C2_tagged_subbalance_lost_on_failed_debit :
    (Dice.joinGame ⟨true, false, some Dice.gameW, [(1, ⟨0, 1000⟩), (2, ⟨30, 50⟩)]⟩
        2 "b" 10).1 = Dice.JoinR.insufficient 100 ∧
    (Dice.joinGame ⟨true, false, some Dice.gameW, [(1, ⟨0, 1000⟩), (2, ⟨30, 50⟩)]⟩
        2 "b" 10).2.game = some Dice.gameW ∧
    getBal [(1, ⟨0, 1000⟩), (2, ⟨30, 50⟩)] 2 = ⟨30, 50⟩ ∧
    getBal (Dice.joinGame ⟨true, false, some Dice.gameW, [(1, ⟨0, 1000⟩), (2, ⟨30, 50⟩)]⟩
        2 "b" 10).2.balances 2 = ⟨0, 50⟩ ∧
    (Lowcard.startGame ⟨true, false, none, none, [(2, ⟨30, 50⟩)]⟩ 2 "b" 100 false 5).1
      = Lowcard.StartR.insufficient 100 ∧
    getBal (Lowcard.startGame ⟨true, false, none, none, [(2, ⟨30, 50⟩)]⟩
        2 "b" 100 false 5).2.balances 2 = ⟨0, 50⟩ := by
  decide

/-! ## Balance-fold lemmas

`creditFold` abstracts the refund / payout loops: credit `amt` to the
key of every list element satisfying `keep`. -/

def creditFold {α : Type} (keep : α → Bool) (key : α → Nat) (amt : Nat)
    (ps : List α) (bs : BalMap) : BalMap :=
  ps.foldl (fun b p => if keep p then addCredits b (key p) amt else b) bs

theorem getBal_cons (b : Nat × Balance) (bs : BalMap) (u : Nat) :
    getBal (b :: bs) u = if b.1 == u then b.2 else getBal bs u := by
  unfold getBal
  cases hb : b.1 == u <;> simp [List.find?_cons, hb]

theorem addCredits_cons (b : Nat × Balance) (bs : BalMap) (v a : Nat) :
    addCredits (b :: bs) v a
      = (if b.1 == v then (b.1, ⟨b.2.tagged, b.2.main + a⟩) else b) :: addCredits bs v a := rfl

theorem present_addCredits (bs : BalMap) (v a u : Nat) :
    present (addCredits bs v a) u = present bs u := by
  induction bs with
  | nil => rfl
  | cons b bs ih =>
    rw [addCredits_cons]
    show (_ || present (addCredits bs v a) u) = (_ || present bs u)
    rw [ih]
    cases hbv : b.1 == v <;> simp

theorem getBal_addCredits_ne (bs : BalMap) (v a u : Nat) (h : u ≠ v) :
    getBal (addCredits bs v a) u = getBal bs u := by
  induction bs with
  | nil => rfl
  | cons b bs ih =>
    rw [addCredits_cons, getBal_cons, getBal_cons]
    cases hbv : b.1 == v
    · simp [ih]
    · have hb1 : b.1 = v := by simpa using hbv
      have hbu : (b.1 == u) = false := by
        simp [hb1]
        exact fun hh => h hh.symm
      simp [hbu, ih]

theorem getBal_addCredits_self (bs : BalMap) (a u : Nat) (h : present bs u = true) :
    getBal (addCredits bs u a) u
      = ⟨(getBal bs u).tagged, (getBal bs u).main + a⟩ := by
  induction bs with
  | nil => cases h
  | cons b bs ih =>
    rw [addCredits_cons, getBal_cons, getBal_cons]
    cases hbu : b.1 == u
    · have h2 : present bs u = true := by
        simpa [present, List.any_cons, hbu] using h
      simp [hbu, ih h2]
    · simp [hbu]

theorem present_creditFold {α : Type} (keep : α → Bool) (key : α → Nat) (amt : Nat)
    (ps : List α) : ∀ bs u, present (creditFold keep key amt ps bs) u = present bs u := by
  induction ps with
  | nil => intro bs u; rfl
  | cons q ps ih =>
    intro bs u
    show present (creditFold keep key amt ps
      (if keep q then addCredits bs (key q) amt else bs)) u = present bs u
    rw [ih]
    by_cases hq : keep q <;> simp [hq, present_addCredits]

theorem getBal_creditFold_not_mem {α : Type} (keep : α → Bool) (key : α → Nat) (amt : Nat)
    (ps : List α) : ∀ bs u, u ∉ ps.map key →
      getBal (creditFold keep key amt ps bs) u = getBal bs u := by
  induction ps with
  | nil => intro bs u _; rfl
  | cons q ps ih =>
    intro bs u hu
    simp only [List.map_cons, List.mem_cons, not_or] at hu
    show getBal (creditFold keep key amt ps
      (if keep q then addCredits bs (key q) amt else bs)) u = getBal bs u
    rw [ih _ u hu.2]
    by_cases hq : keep q <;> simp [hq, getBal_addCredits_ne _ _ _ _ hu.1]

/-- The main payout fact: in a credit fold over players with pairwise
distinct keys, a kept player's row gains exactly `amt` in its main
balance, tagged part untouched. -/
theorem getBal_creditFold {α : Type} (keep : α → Bool) (key : α → Nat) (amt : Nat)
    (ps : List α) : ∀ bs u p, (ps.map key).Nodup → p ∈ ps → key p = u → keep p = true →
      present bs u = true →
      getBal (creditFold keep key amt ps bs) u
        = ⟨(getBal bs u).tagged, (getBal bs u).main + amt⟩ := by
  induction ps with
  | nil => intro bs u p _ hp; cases hp
  | cons q ps ih =>
    intro bs u p hnd hp hkey hkeep hpres
    simp only [List.map_cons, List.nodup_cons] at hnd
    show getBal (creditFold keep key amt ps
      (if keep q then addCredits bs (key q) amt else bs)) u = _
    by_cases hqu : key q = u
    · have hpq : p = q ∨ p ∈ ps := List.mem_cons.mp hp
      have hnotmem : u ∉ ps.map key := by
        rw [← hqu]; exact hnd.1
      have hpq2 : p = q := by
        rcases hpq with h1 | h1
        · exact h1
        · exfalso
          exact hnotmem (hkey ▸ List.mem_map_of_mem key h1)
      rw [getBal_creditFold_not_mem keep key amt ps _ u hnotmem]
      rw [hpq2] at hkeep
      rw [hkeep]
      simp only [if_pos rfl, hqu]
      exact getBal_addCredits_self bs amt u hpres
    · have hpmem : p ∈ ps := by
        rcases List.mem_cons.mp hp with h1 | h1
        · exfalso; rw [h1] at hkey; exact hqu hkey
        · exact h1
      have hne : u ≠ key q := fun hh => hqu hh.symm
      have hrec := ih (if keep q then addCredits bs (key q) amt else bs) u p hnd.2
        hpmem hkey hkeep
      by_cases hq : keep q
      · rw [hrec (by rw [if_pos hq, present_addCredits]; exact hpres)]
        rw [if_pos hq, getBal_addCredits_ne bs (key q) amt u hne]
      · rw [hrec (by rw [if_neg hq]; exact hpres)]
        rw [if_neg hq]

theorem Dice.refundAll_eq (bs : BalMap) (ps : List Player) (amt : Nat) :
    refundAll bs ps amt = creditFold (fun _ => true) Player.userId amt ps bs := rfl

theorem Lowcard.refundAll_eq_card (bs : BalMap) (ps : List Player) (amt : Nat) :
    refundAll bs ps amt = creditFold (fun _ => true) Player.userId amt ps bs := rfl

/-- Concrete playing dice session with two non-eliminated players. -/
def Dice.gameP : Game :=
  { id := 5, status := GStatus.playing, entryAmount := 100, pot := 200,
    currentRound := 1, botTarget := none,
    players := [newPlayer 1 "a", newPlayer 2 "b"], startedBy := 1, joinDeadline := 30005 }

/-- C3 counterexample: removing the room's bot flag while the concrete
session `Dice.gameP` is `playing` — two non-eliminated players, no
winner determined — deletes the session but refunds nobody: every
balance row is byte-for-byte unchanged.  The claim that every such
destruction refunds the non-eliminated players is therefore false. -/
theorem C3_counterexample_remove_bot_playing_no_refund :
    Dice.gameP.status = GStatus.playing ∧
    (Dice.gameP.players.filter (fun p => !p.isEliminated)).length = 2 ∧
    Dice.gameP.winnerId = none ∧
    (Dice.removeBotFromRoom ⟨true, false, some Dice.gameP, sampleBal⟩).1 = Dice.StopR.ok ∧
    (Dice.removeBotFromRoom ⟨true, false, some Dice.gameP, sampleBal⟩).2.game = none ∧
    (Dice.removeBotFromRoom ⟨true, false, some Dice.gameP, sampleBal⟩).2.balances
      = sampleBal := by
  decide

/-- C3 amended: refunds before destruction hold exactly in these cases —
the dice `cancelGame` refunds every non-eliminated player in both
`waiting` and `playing` sessions before deleting; `removeBotFromRoom`
refunds every listed player only while the session is still `waiting`
(the dice and the card variant alike, each stated below), and deletes a
`playing` session without any refund in either variant; the card
variant's `stopGame` refunds every listed player while the session is
not `playing` and refuses to act on a `playing` session. -/
theorem C3_refund_on_destruction_amended
    (sd : Dice.Store) (sl : Lowcard.Store) (gd : Dice.Game) (gl : Lowcard.Game)
    (p : Dice.Player) (q : Lowcard.Player) (u v : Nat) :
    -- dice cancelGame refunds non-eliminated players (waiting or playing)
    (sd.game = some gd → gd.status ≠ GStatus.finished →
      (gd.players.map Dice.Player.userId).Nodup → p ∈ gd.players →
      p.isEliminated = false → p.userId = u → present sd.balances u = true →
      (Dice.cancelGame sd).1 = Dice.StopR.ok ∧
      (Dice.cancelGame sd).2.game = none ∧
      getBal (Dice.cancelGame sd).2.balances u
        = ⟨(getBal sd.balances u).tagged,
           (getBal sd.balances u).main + gd.entryAmount⟩) ∧
    -- dice bot removal refunds while waiting
    (sd.botFlag = true → sd.game = some gd → gd.status = GStatus.waiting →
      (gd.players.map Dice.Player.userId).Nodup → p ∈ gd.players →
      p.userId = u → present sd.balances u = true →
      (Dice.removeBotFromRoom sd).2.game = none ∧
      getBal (Dice.removeBotFromRoom sd).2.balances u
        = ⟨(getBal sd.balances u).tagged,
           (getBal sd.balances u).main + gd.entryAmount⟩) ∧
    -- dice bot removal of a playing session deletes without refund
    (sd.botFlag = true → sd.game = some gd → gd.status = GStatus.playing →
      (Dice.removeBotFromRoom sd).1 = Dice.StopR.ok ∧
      (Dice.removeBotFromRoom sd).2.game = none ∧
      (Dice.removeBotFromRoom sd).2.balances = sd.balances) ∧
    -- card stopGame refunds while not playing
    (sl.game = some gl → gl.status ≠ GStatus.playing →
      (gl.players.map Lowcard.Player.userId).Nodup → q ∈ gl.players →
      q.userId = v → present sl.balances v = true →
      (Lowcard.stopGame sl).1 = Lowcard.StopR.ok ∧
      (Lowcard.stopGame sl).2.game = none ∧
      getBal (Lowcard.stopGame sl).2.balances v
        = ⟨(getBal sl.balances v).tagged,
           (getBal sl.balances v).main + gl.entryAmount⟩) ∧
    -- card stopGame refuses on a playing session
    (sl.game = some gl → gl.status = GStatus.playing →
      Lowcard.stopGame sl = (Lowcard.StopR.cannotStop, sl)) ∧
    -- card bot removal refunds while waiting
    (sl.botFlag = true → sl.game = some gl → gl.status = GStatus.waiting →
      (gl.players.map Lowcard.Player.userId).Nodup → q ∈ gl.players →
      q.userId = v → present sl.balances v = true →
      (Lowcard.removeBotFromRoom sl).2.game = none ∧
      getBal (Lowcard.removeBotFromRoom sl).2.balances v
        = ⟨(getBal sl.balances v).tagged,
           (getBal sl.balances v).main + gl.entryAmount⟩) ∧
    -- card bot removal of a playing session deletes without refund
    (sl.botFlag = true → sl.game = some gl → gl.status = GStatus.playing →
      (Lowcard.removeBotFromRoom sl).1 = Lowcard.StopR.ok ∧
      (Lowcard.removeBotFromRoom sl).2.game = none ∧
      (Lowcard.removeBotFromRoom sl).2.balances = sl.balances) := by
  refine ⟨?_, ?_, ?_, ?_, ?_, ?_, ?_⟩
  · intro hg hfin hnd hp helim hkey hpres
    have hcancel : Dice.cancelGame sd
        = (Dice.StopR.ok, { sd with
            game := none
            balances := creditFold (fun r => !r.isEliminated) Dice.Player.userId
              gd.entryAmount gd.players sd.balances }) := by
      unfold Dice.cancelGame
      rw [hg]
      simp only [if_neg hfin]
      rfl
    rw [hcancel]
    exact ⟨rfl, rfl,
      getBal_creditFold _ _ _ _ sd.balances u p hnd hp hkey (by simp [helim]) hpres⟩
  · intro hb hg hw hnd hp hkey hpres
    have hrm : Dice.removeBotFromRoom sd
        = (Dice.StopR.ok, { sd with
            botFlag := false
            game := none
            balances := creditFold (fun _ => true) Dice.Player.userId
              gd.entryAmount gd.players sd.balances }) := by
      unfold Dice.removeBotFromRoom
      rw [hb, hg]
      simp only [Bool.not_true, Bool.false_eq_true, if_false, if_pos hw]
      rw [Dice.refundAll_eq]
    rw [hrm]
    exact ⟨rfl, getBal_creditFold _ _ _ _ sd.balances u p hnd hp hkey rfl hpres⟩
  · intro hb hg hpl
    have hrm : Dice.removeBotFromRoom sd
        = (Dice.StopR.ok, { sd with
            botFlag := false
            game := none }) := by
      unfold Dice.removeBotFromRoom
      rw [hb, hg]
      simp [hpl]
    rw [hrm]
    exact ⟨rfl, rfl, rfl⟩
  · intro hg hnp hnd hq hkey hpres
    have hstop : Lowcard.stopGame sl
        = (Lowcard.StopR.ok, { sl with
            game := none
            deck := none
            balances := creditFold (fun _ => true) Lowcard.Player.userId
              gl.entryAmount gl.players sl.balances }) := by
      unfold Lowcard.stopGame
      rw [hg]
      simp only [if_neg hnp]
      rw [Lowcard.refundAll_eq_card]
    rw [hstop]
    exact ⟨rfl, rfl, getBal_creditFold _ _ _ _ sl.balances v q hnd hq hkey rfl hpres⟩
  · intro hg hpl
    unfold Lowcard.stopGame
    rw [hg]
    simp only [if_pos hpl]
  · intro hb hg hw hnd hq hkey hpres
    have hrm : Lowcard.removeBotFromRoom sl
        = (Lowcard.StopR.ok, { sl with
            botFlag := false
            game := none
            deck := none
            balances := creditFold (fun _ => true) Lowcard.Player.userId
              gl.entryAmount gl.players sl.balances }) := by
      unfold Lowcard.removeBotFromRoom
      rw [hb, hg]
      simp only [Bool.not_true, Bool.false_eq_true, if_false, if_pos hw]
      rw [Lowcard.refundAll_eq_card]
    rw [hrm]
    exact ⟨rfl, getBal_creditFold _ _ _ _ sl.balances v q hnd hq hkey rfl hpres⟩
  · intro hb hg hpl
    have hrm : Lowcard.removeBotFromRoom sl
        = (Lowcard.StopR.ok, { sl with
            botFlag := false
            game := none
            deck := none }) := by
      unfold Lowcard.removeBotFromRoom
      rw [hb, hg]
      simp [hpl]
    rw [hrm]
    exact ⟨rfl, rfl, rfl⟩

/-- Witness for C3 amended: cancelling the concrete playing session
`Dice.gameP` refunds player 2 the 100-coin entry (balance 1000 → 1100)
and deletes the session; stopping a concrete playing card session is
refused. -/
theorem C3_refund_on_destruction_amended_witness :
    ((Dice.cancelGame ⟨true, false, some Dice.gameP, sampleBal⟩).1 = Dice.StopR.ok ∧
      (Dice.cancelGame ⟨true, false, some Dice.gameP, sampleBal⟩).2.game = none ∧
      getBal (Dice.cancelGame ⟨true, false, some Dice.gameP, sampleBal⟩).2.balances 2
        = ⟨0, 1100⟩) ∧
    Lowcard.stopGame ⟨true, false, some { Lowcard.gameW with status := GStatus.playing },
        none, sampleBal⟩
      = (Lowcard.StopR.cannotStop,
         ⟨true, false, some { Lowcard.gameW with status := GStatus.playing },
          none, sampleBal⟩) ∧
    ((Lowcard.removeBotFromRoom ⟨true, false, some Lowcard.gameW, none, sampleBal⟩).2.game
        = none ∧
      getBal (Lowcard.removeBotFromRoom
          ⟨true, false, some Lowcard.gameW, none, sampleBal⟩).2.balances 1
        = ⟨0, 1100⟩) := by
  have h := C3_refund_on_destruction_amended
    ⟨true, false, some Dice.gameP, sampleBal⟩
    ⟨true, false, some { Lowcard.gameW with status := GStatus.playing }, none, sampleBal⟩
    Dice.gameP { Lowcard.gameW with status := GStatus.playing }
    (Dice.newPlayer 2 "b") (Lowcard.newPlayer 1 "a") 2 1
  have h2 := C3_refund_on_destruction_amended
    ⟨true, false, some Dice.gameP, sampleBal⟩
    ⟨true, false, some Lowcard.gameW, none, sampleBal⟩
    Dice.gameP Lowcard.gameW
    (Dice.newPlayer 2 "b") (Lowcard.newPlayer 1 "a") 2 1
  refine ⟨?_, ?_, ?_⟩
  · have h1 := h.1 rfl (by decide) (by decide) (by decide) rfl rfl (by decide)
    exact ⟨h1.1, h1.2.1, by rw [h1.2.2]; decide⟩
  · exact h.2.2.2.2.1 rfl rfl
  · have h3 := h2.2.2.2.2.2.1 rfl rfl rfl (by decide) (by decide) rfl (by decide)
    exact ⟨h3.1, by rw [h3.2]; decide⟩

/-! ## Payout arithmetic -/

/-- When filtering leaves a single element, `find?` with the same
predicate returns it (the source pairs `players.filter(...)` with
`players.find(...)` over the same non-eliminated predicate). -/
theorem find?_eq_of_filter {α : Type} (q : α → Bool) (ps : List α) (p : α)
    (h : ps.filter q = [p]) : ps.find? q = some p := by
  induction ps with
  | nil => cases h
  | cons a as ih =>
    by_cases hq : q a
    · rw [List.filter_cons_of_pos hq] at h
      injection h with h1 h2
      subst h1
      simp [List.find?_cons, hq]
    · rw [List.filter_cons_of_neg hq] at h
      have hqf : q a = false := by simpa using hq
      simp [List.find?_cons, hqf]
      exact ih h

/-- With exactly one non-eliminated player, `finalizeGame` pays that
player the pot minus the floor-rounded 10 % house fee. -/
theorem Dice.finalizeGame_single_winner (s : Store) (g : Game) (p : Player) (u : Nat)
    (hg : s.game = some g)
    (hfil : g.players.filter (fun r => !r.isEliminated) = [p])
    (hkey : p.userId = u) (hpres : present s.balances u = true) :
    (finalizeGame s).1
      = FinR.gameOver u g.pot (g.pot - g.pot * HOUSE_FEE_PERCENT / 100)
          (g.pot * HOUSE_FEE_PERCENT / 100) ∧
    getBal (finalizeGame s).2.balances u
      = ⟨(getBal s.balances u).tagged,
         (getBal s.balances u).main + (g.pot - g.pot * HOUSE_FEE_PERCENT / 100)⟩ := by
  have hfind : g.players.find? (fun r => !r.isEliminated) = some p :=
    find?_eq_of_filter _ _ _ hfil
  have heq : finalizeGame s
      = (FinR.gameOver p.userId g.pot (g.pot - g.pot * HOUSE_FEE_PERCENT / 100)
           (g.pot * HOUSE_FEE_PERCENT / 100),
         { s with
           game := some { g with
             status := GStatus.finished
             winnerId := some p.userId
             winnings := some (g.pot - g.pot * HOUSE_FEE_PERCENT / 100)
             houseFee := some (g.pot * HOUSE_FEE_PERCENT / 100) }
           balances := addCredits s.balances p.userId
             (g.pot - g.pot * HOUSE_FEE_PERCENT / 100) }) := by
    unfold finalizeGame
    rw [hg]
    simp only [hfind]
  rw [heq, hkey]
  exact ⟨rfl, getBal_addCredits_self s.balances _ u hpres⟩

/-- Every game-over outcome of the lowest-rank fall-through pays the
pot minus the floor-rounded 5 % commission. -/
theorem Lowcard.tallyLowest_gameOver (s : Store) (g : Game) (t : Bool) (now w win : Nat)
    (h : (tallyLowest s g t now).1 = TallyR.gameOver w win) :
    win = g.pot - g.pot * 5 / 100 := by
  revert h
  simp only [tallyLowest, finishWith]
  repeat' split
  all_goals intro h
  all_goals simp at h
  all_goals rw [← h.2]

/-- Every game-over outcome of a card tally pays the pot minus the
floor-rounded 5 % commission. -/
theorem Lowcard.tallyRound_gameOver (s : Store) (t : Bool) (now w win : Nat)
    (h : (tallyRound s t now).1 = TallyR.gameOver w win) :
    ∃ g, s.game = some g ∧ win = g.pot - g.pot * 5 / 100 := by
  rcases hg : s.game with _ | g
  · rw [show tallyRound s t now = (.noGame, s) by unfold tallyRound; rw [hg]] at h
    cases h
  · refine ⟨g, rfl, ?_⟩
    revert h
    simp only [tallyRound, finishWith, hg]
    repeat' split
    all_goals intro h
    · simp at h
    · simp at h
      rw [← h.2]
    · exact Lowcard.tallyLowest_gameOver s g t now w win h
    · exact Lowcard.tallyLowest_gameOver s g t now w win h

/-- C9: a game finishing with exactly one non-eliminated player pays
that winner the pot minus a floor-rounded fixed-percentage fee in exact
integer arithmetic — `pot − ⌊pot·10/100⌋` for dice (a 300-coin pot pays
270) and `pot − ⌊pot·5/100⌋` (the integer value of
`Math.floor(pot * 0.05)`) for cards. -/
theorem C9_winner_payout
    (sd : Dice.Store) (sl : Lowcard.Store) (g : Dice.Game) (p : Dice.Player)
    (u : Nat) (t : Bool) (now w win : Nat) :
    (sd.game = some g → g.players.filter (fun r => !r.isEliminated) = [p] →
      p.userId = u → present sd.balances u = true →
      (Dice.finalizeGame sd).1
        = Dice.FinR.gameOver u g.pot (g.pot - g.pot * Dice.HOUSE_FEE_PERCENT / 100)
            (g.pot * Dice.HOUSE_FEE_PERCENT / 100) ∧
      getBal (Dice.finalizeGame sd).2.balances u
        = ⟨(getBal sd.balances u).tagged,
           (getBal sd.balances u).main + (g.pot - g.pot * Dice.HOUSE_FEE_PERCENT / 100)⟩) ∧
    ((Lowcard.tallyRound sl t now).1 = Lowcard.TallyR.gameOver w win →
      ∃ gl, sl.game = some gl ∧ win = gl.pot - gl.pot * 5 / 100) := by
  constructor
  · intro hg hfil hkey hpres
    exact Dice.finalizeGame_single_winner sd g p u hg hfil hkey hpres
  · intro h
    exact Lowcard.tallyRound_gameOver sl t now w win h

/-- Concrete finished-but-for-one dice game: pot 300, player 1 alive,
player 2 eliminated. -/
def Dice.gameF : Game :=
  { id := 5, status := GStatus.playing, entryAmount := 100, pot := 300,
    currentRound := 2, botTarget := none,
    players := [newPlayer 1 "a", { newPlayer 2 "b" with isEliminated := true },
                { newPlayer 3 "c" with isEliminated := true }],
    startedBy := 1, joinDeadline := 30005 }

/-- Concrete two-player card game about to finish: pot 200, lowest card
is eliminated, winner takes 190. -/
def Lowcard.gameF : Game :=
  { id := 5, status := GStatus.playing, entryAmount := 100, pot := 200,
    currentRound := 1,
    players := [⟨1, "a", false, true, some ⟨5, Suit.h⟩⟩,
                ⟨2, "b", false, true, some ⟨10, Suit.s⟩⟩],
    startedBy := 1, joinDeadline := 30005 }

/-- Witness for C9: the dice winner of the 300-coin pot is credited
270 (fee 30, balance 1000 → 1270); the concrete card tally ends with
winner 2 receiving 190 = 200 − ⌊200·5/100⌋. -/
theorem C9_winner_payout_witness :
    ((Dice.finalizeGame ⟨true, false, some Dice.gameF, sampleBal⟩).1
        = Dice.FinR.gameOver 1 300 270 30 ∧
      getBal (Dice.finalizeGame ⟨true, false, some Dice.gameF, sampleBal⟩).2.balances 1
        = ⟨0, 1270⟩) ∧
    ((Lowcard.tallyRound ⟨true, false, some Lowcard.gameF, none, sampleBal⟩ false 40000).1
        = Lowcard.TallyR.gameOver 2 190 ∧
      ∃ gl, (⟨true, false, some Lowcard.gameF, none, sampleBal⟩ : Lowcard.Store).game
          = some gl ∧ (190 : Nat) = gl.pot - gl.pot * 5 / 100) := by
  have h := C9_winner_payout ⟨true, false, some Dice.gameF, sampleBal⟩
    ⟨true, false, some Lowcard.gameF, none, sampleBal⟩
    Dice.gameF (Dice.newPlayer 1 "a") 1 false 40000 2 190
  constructor
  · have h1 := h.1 rfl (by decide) rfl (by decide)
    exact ⟨h1.1, by rw [h1.2]; decide⟩
  · exact ⟨by decide, h.2 (by decide)⟩

/-! ## Dice immunity -/

/-- `find?` commutes with a keyed in-place update: if the predicate
finds `p` and still accepts `f p`, it finds `f p` after the update. -/
theorem find?_updateFirst {α : Type} (q : α → Bool) (f : α → α) (ps : List α) (p : α)
    (hfind : ps.find? q = some p) (hq : q (f p) = true) :
    (updateFirst q f ps).find? q = some (f p) := by
  induction ps with
  | nil => cases hfind
  | cons a as ih =>
    by_cases ha : q a
    · rw [List.find?_cons_of_pos _ ha] at hfind
      injection hfind with hfind
      subst hfind
      unfold updateFirst
      rw [if_pos ha, List.find?_cons_of_pos _ hq]
    · rw [List.find?_cons_of_neg _ ha] at hfind
      unfold updateFirst
      rw [if_neg ha, List.find?_cons_of_neg _ ha]
      exact ih hfind

/-- `find?` over a map by a function that preserves the predicate's
verdict. -/
theorem find?_map_of_pred {α : Type} (q : α → Bool) (f : α → α) (ps : List α)
    (hf : ∀ p, q (f p) = q p) :
    (ps.map f).find? q = (ps.find? q).map f := by
  induction ps with
  | nil => rfl
  | cons a as ih =>
    rw [List.map_cons]
    by_cases ha : q a
    · rw [List.find?_cons_of_pos _ (show q (f a) from (hf a).symm ▸ ha),
        List.find?_cons_of_pos _ ha]
      rfl
    · rw [List.find?_cons_of_neg _ (show ¬q (f a) from by rw [hf]; exact ha),
        List.find?_cons_of_neg _ ha]
      exact ih

/-- Rolling (6,6) against any valid target (the bot's two-dice total is
at most 12) marks the player in for the current round and records the
earned immunity. -/
theorem Dice.rollPlayerDice_double_six (s : Store) (g : Game) (tgt : BotTarget)
    (u : Nat) (p : Player)
    (hg : s.game = some g) (hst : g.status = GStatus.playing)
    (htg : g.botTarget = some tgt) (htot : tgt.total ≤ 12)
    (hfind : g.players.find? (fun r => r.userId == u && !r.isEliminated) = some p)
    (hroll : p.hasRolled = false) :
    ∃ g2, (rollPlayerDice s u 6 6).2.game = some g2 ∧
      g2.players.find? (fun r => r.userId == u && !r.isEliminated)
        = some { p with
            hasRolled := true
            die1 := some 6
            die2 := some 6
            total := some 12
            earnedImmunity := true
            isIn := some true } ∧
      ∃ b, (rollPlayerDice s u 6 6).1 = RollR.ok 6 6 12 true true false b := by
  have hm : decide (tgt.total ≤ 6 + 6) = true := decide_eq_true htot
  have hq := List.find?_some hfind
  have heq : (rollPlayerDice s u 6 6).2.game
      = some { g with
          players := updateFirst (fun r => r.userId == u && !r.isEliminated)
            (fun _ => { p with
              hasRolled := true
              die1 := some 6
              die2 := some 6
              total := some 12
              earnedImmunity := true
              isIn := some true })
            g.players } := by
    unfold rollPlayerDice
    rw [hg]
    simp [hst, htg, hfind, hroll, hm]
  refine ⟨_, heq, ?_, ?_⟩
  · exact find?_updateFirst _ _ g.players p hfind hq
  · refine ⟨(updateFirst (fun r => r.userId == u && !r.isEliminated)
        (fun _ => { p with
          hasRolled := true
          die1 := some 6
          die2 := some 6
          total := some 12
          earnedImmunity := true
          isIn := some true })
        g.players).all (fun a => a.isEliminated || a.hasRolled), ?_⟩
    unfold rollPlayerDice
    rw [hg]
    simp [hst, htg, hfind, hroll, hm]

/-- An active immunity marks the player in regardless of the dice. -/
theorem Dice.rollPlayerDice_immune (s : Store) (g : Game) (tgt : BotTarget)
    (u : Nat) (p : Player) (d1 d2 : Nat)
    (hg : s.game = some g) (hst : g.status = GStatus.playing)
    (htg : g.botTarget = some tgt)
    (hfind : g.players.find? (fun r => r.userId == u && !r.isEliminated) = some p)
    (hroll : p.hasRolled = false) (himm : p.hasImmunity = true) :
    ∃ g2, (rollPlayerDice s u d1 d2).2.game = some g2 ∧
      g2.players.find? (fun r => r.userId == u && !r.isEliminated)
        = some { p with
            hasRolled := true
            die1 := some d1
            die2 := some d2
            total := some (d1 + d2)
            earnedImmunity := if d1 == 6 && d2 == 6 then true else p.earnedImmunity
            isIn := some true } := by
  have hq := List.find?_some hfind
  have hisin : (decide (tgt.total ≤ d1 + d2) || p.hasImmunity) = true := by
    simp [himm]
  have heq : (rollPlayerDice s u d1 d2).2.game
      = some { g with
          players := updateFirst (fun r => r.userId == u && !r.isEliminated)
            (fun _ => { p with
              hasRolled := true
              die1 := some d1
              die2 := some d2
              total := some (d1 + d2)
              earnedImmunity := if d1 == 6 && d2 == 6 then true else p.earnedImmunity
              isIn := some true })
            g.players } := by
    unfold rollPlayerDice
    rw [hg]
    simp [hst, htg, hfind, hroll, hisin]
  refine ⟨_, heq, ?_⟩
  exact find?_updateFirst _ _ g.players p hfind hq

/-- `startNextRound` converts an earned immunity into an active one for
the new round — and only resets it, never stacks: the player's record in
the next round carries `hasImmunity = true`, `earnedImmunity = false`
and cleared transient fields. -/
theorem Dice.startNextRound_carries_immunity (s : Store) (g : Game) (u : Nat) (p : Player)
    (d1 d2 : Nat)
    (hg : s.game = some g) (hst : g.status = GStatus.playing)
    (hfind : g.players.find? (fun r => r.userId == u) = some p)
    (helim : p.isEliminated = false) (hearn : p.earnedImmunity = true) :
    ∃ g2, (startNextRound s d1 d2).2.game = some g2 ∧
      g2.currentRound = g.currentRound + 1 ∧
      g2.botTarget = some ⟨d1, d2, d1 + d2⟩ ∧
      g2.players.find? (fun r => r.userId == u)
        = some { p with
            hasImmunity := true
            earnedImmunity := false
            hasRolled := false
            die1 := none
            die2 := none
            total := none
            isIn := none } := by
  have heq : (startNextRound s d1 d2).2.game
      = some { g with
          currentRound := g.currentRound + 1
          botTarget := some ⟨d1, d2, d1 + d2⟩
          players := g.players.map (fun q =>
            if q.isEliminated then q
            else
              { q with
                hasImmunity := if q.earnedImmunity then true else q.hasImmunity
                earnedImmunity := if q.earnedImmunity then false else q.earnedImmunity
                hasRolled := false
                die1 := none
                die2 := none
                total := none
                isIn := none }) } := by
    simp only [startNextRound, hg]
    rw [if_neg (show ¬(g.status ≠ GStatus.playing) from by simp [hst])]
  refine ⟨_, heq, rfl, rfl, ?_⟩
  rw [show ({ g with
        currentRound := g.currentRound + 1
        botTarget := some ⟨d1, d2, d1 + d2⟩
        players := g.players.map (fun q =>
          if q.isEliminated then q
          else
            { q with
              hasImmunity := if q.earnedImmunity then true else q.hasImmunity
              earnedImmunity := if q.earnedImmunity then false else q.earnedImmunity
              hasRolled := false
              die1 := none
              die2 := none
              total := none
              isIn := none }) } : Game).players
      = g.players.map (fun q =>
          if q.isEliminated then q
          else
            { q with
              hasImmunity := if q.earnedImmunity then true else q.hasImmunity
              earnedImmunity := if q.earnedImmunity then false else q.earnedImmunity
              hasRolled := false
              die1 := none
              die2 := none
              total := none
              isIn := none }) from rfl]
  rw [find?_map_of_pred _ _ g.players (by
    intro r
    by_cases he : r.isEliminated <;> simp [he])]
  rw [hfind]
  simp [helim, hearn]

/-- `tallyRound` clears the immunity of every surviving record: if no
already-eliminated player carries a stale immunity, then after the tally
no stored player carries one — whether or not the immunity was needed,
and in the replay branch as well. -/
theorem Dice.tallyRound_clears_immunity (s : Store) (g : Game)
    (hg : s.game = some g) (hst : g.status = GStatus.playing)
    (hstale : ∀ p, p ∈ g.players → p.isEliminated = true → p.hasImmunity = false) :
    ∀ r q, (tallyRound s).2.game = some r → q ∈ r.players → q.hasImmunity = false := by
  have hclear : ∀ y, y ∈ g.players.map (fun q =>
      if q.isEliminated then q else { q with hasImmunity := false }) →
      y.hasImmunity = false := by
    intro y hy
    obtain ⟨p0, hp0, rfl⟩ := List.mem_map.mp hy
    by_cases he : p0.isEliminated
    · simp only [if_pos he]
      exact hstale p0 hp0 he
    · simp [he]
  intro r q hr hq
  revert hr
  simp only [tallyRound, hg]
  rw [if_neg (show ¬(g.status ≠ GStatus.playing) from by simp [hst])]
  split
  · intro hr
    cases hr
    obtain ⟨y, hy, rfl⟩ := List.mem_map.mp hq
    have hyim := hclear y hy
    by_cases hye : y.isEliminated <;> simp [hye, hyim]
  · split
    · -- one player left: finalizeGame path
      simp only [finalizeGame]
      split
      · intro hr
        cases hr
      · intro hr
        cases hr
        obtain ⟨y, hy, rfl⟩ := List.mem_map.mp hq
        have hyim := hclear y hy
        by_cases hye : !y.isEliminated && y.isIn == some false <;> simp [hye, hyim]
    · intro hr
      cases hr
      obtain ⟨y, hy, rfl⟩ := List.mem_map.mp hq
      have hyim := hclear y hy
      by_cases hye : !y.isEliminated && y.isIn == some false <;> simp [hye, hyim]

/-- C6: a dice player who rolls (6,6) is marked in for the current
round (the two-dice target never exceeds 12) and earns exactly one
round of immunity: `startNextRound` turns the earned flag into an
active immunity for the immediately following round only (the earned
flag is reset, so nothing stacks), an active immunity marks the player
in regardless of the dice, and `tallyRound` clears every surviving
player's immunity whether or not it was needed. -/
theorem C6_double_six_one_round_immunity :
    (∀ (s : Dice.Store) (g : Dice.Game) (tgt : Dice.BotTarget) (u : Nat) (p : Dice.Player),
      s.game = some g → g.status = GStatus.playing → g.botTarget = some tgt →
      tgt.total ≤ 12 →
      g.players.find? (fun r => r.userId == u && !r.isEliminated) = some p →
      p.hasRolled = false →
      ∃ g2, (Dice.rollPlayerDice s u 6 6).2.game = some g2 ∧
        g2.players.find? (fun r => r.userId == u && !r.isEliminated)
          = some { p with
              hasRolled := true
              die1 := some 6
              die2 := some 6
              total := some 12
              earnedImmunity := true
              isIn := some true } ∧
        ∃ b, (Dice.rollPlayerDice s u 6 6).1 = Dice.RollR.ok 6 6 12 true true false b) ∧
    (∀ (s : Dice.Store) (g : Dice.Game) (u : Nat) (p : Dice.Player) (d1 d2 : Nat),
      s.game = some g → g.status = GStatus.playing →
      g.players.find? (fun r => r.userId == u) = some p →
      p.isEliminated = false → p.earnedImmunity = true →
      ∃ g2, (Dice.startNextRound s d1 d2).2.game = some g2 ∧
        g2.currentRound = g.currentRound + 1 ∧
        g2.botTarget = some ⟨d1, d2, d1 + d2⟩ ∧
        g2.players.find? (fun r => r.userId == u)
          = some { p with
              hasImmunity := true
              earnedImmunity := false
              hasRolled := false
              die1 := none
              die2 := none
              total := none
              isIn := none }) ∧
    (∀ (s : Dice.Store) (g : Dice.Game) (tgt : Dice.BotTarget) (u : Nat) (p : Dice.Player)
        (d1 d2 : Nat),
      s.game = some g → g.status = GStatus.playing → g.botTarget = some tgt →
      g.players.find? (fun r => r.userId == u && !r.isEliminated) = some p →
      p.hasRolled = false → p.hasImmunity = true →
      ∃ g2, (Dice.rollPlayerDice s u d1 d2).2.game = some g2 ∧
        g2.players.find? (fun r => r.userId == u && !r.isEliminated)
          = some { p with
              hasRolled := true
              die1 := some d1
              die2 := some d2
              total := some (d1 + d2)
              earnedImmunity := if d1 == 6 && d2 == 6 then true else p.earnedImmunity
              isIn := some true }) ∧
    (∀ (s : Dice.Store) (g : Dice.Game),
      s.game = some g → g.status = GStatus.playing →
      (∀ p, p ∈ g.players → p.isEliminated = true → p.hasImmunity = false) →
      ∀ r q, (Dice.tallyRound s).2.game = some r → q ∈ r.players →
        q.hasImmunity = false) := by
  refine ⟨?_, ?_, ?_, ?_⟩
  · intro s g tgt u p hg hst htg htot hfind hroll
    exact Dice.rollPlayerDice_double_six s g tgt u p hg hst htg htot hfind hroll
  · intro s g u p d1 d2 hg hst hfind helim hearn
    exact Dice.startNextRound_carries_immunity s g u p d1 d2 hg hst hfind helim hearn
  · intro s g tgt u p d1 d2 hg hst htg hfind hroll himm
    exact Dice.rollPlayerDice_immune s g tgt u p d1 d2 hg hst htg hfind hroll himm
  · intro s g hg hst hstale
    exact Dice.tallyRound_clears_immunity s g hg hst hstale

/-- Concrete playing dice round: target 7, two fresh players. -/
def Dice.gameR : Game :=
  { id := 5, status := GStatus.playing, entryAmount := 100, pot := 200, currentRound := 1,
    botTarget := some ⟨3, 4, 7⟩,
    players := [newPlayer 1 "a", newPlayer 2 "b"], startedBy := 1, joinDeadline := 30005 }

/-- Concrete round-end state: player 1 earned immunity last round. -/
def Dice.gameE : Game :=
  { gameR with
    botTarget := none
    players := [{ newPlayer 1 "a" with earnedImmunity := true }, newPlayer 2 "b"] }

/-- Concrete rolled round ready to tally: player 1 in with an active
immunity, player 2 out. -/
def Dice.gameT : Game :=
  { gameR with
    players := [{ newPlayer 1 "a" with
                    hasRolled := true
                    isIn := some true
                    hasImmunity := true },
                { newPlayer 2 "b" with hasRolled := true, isIn := some false }] }

/-- Witness for C6 at concrete states: player 1 rolls (6,6) against
target 7 and is in with earned immunity; the next round starts with the
immunity active and the earned flag cleared; an immune player stays in
on a (1,2) roll; and the tally clears every immunity. -/
theorem C6_double_six_one_round_immunity_witness :
    (∃ g2, (Dice.rollPlayerDice ⟨true, false, some Dice.gameR, sampleBal⟩ 1 6 6).2.game
        = some g2 ∧
      g2.players.find? (fun r => r.userId == 1 && !r.isEliminated)
        = some { Dice.newPlayer 1 "a" with
            hasRolled := true
            die1 := some 6
            die2 := some 6
            total := some 12
            earnedImmunity := true
            isIn := some true } ∧
      ∃ b, (Dice.rollPlayerDice ⟨true, false, some Dice.gameR, sampleBal⟩ 1 6 6).1
        = Dice.RollR.ok 6 6 12 true true false b) ∧
    (∃ g2, (Dice.startNextRound ⟨true, false, some Dice.gameE, sampleBal⟩ 2 5).2.game
        = some g2 ∧
      g2.currentRound = Dice.gameE.currentRound + 1 ∧
      g2.botTarget = some ⟨2, 5, 2 + 5⟩ ∧
      g2.players.find? (fun r => r.userId == 1)
        = some { Dice.newPlayer 1 "a" with
            hasImmunity := true
            earnedImmunity := false }) ∧
    (∀ r q, (Dice.tallyRound ⟨true, false, some Dice.gameT, sampleBal⟩).2.game = some r →
      q ∈ r.players → q.hasImmunity = false) := by
  have h := C6_double_six_one_round_immunity
  refine ⟨?_, ?_, ?_⟩
  · exact h.1 ⟨true, false, some Dice.gameR, sampleBal⟩ Dice.gameR ⟨3, 4, 7⟩ 1
      (Dice.newPlayer 1 "a") rfl rfl rfl (by decide) (by decide) rfl
  · have hb := h.2.1 ⟨true, false, some Dice.gameE, sampleBal⟩ Dice.gameE 1
      ({ Dice.newPlayer 1 "a" with earnedImmunity := true }) 2 5 rfl rfl (by decide) rfl rfl
    obtain ⟨g2, hgame, hcr, hbt, hfd⟩ := hb
    exact ⟨g2, hgame, hcr, hbt, hfd.trans rfl⟩
  · exact h.2.2.2 ⟨true, false, some Dice.gameT, sampleBal⟩ Dice.gameT rfl rfl (by decide)

/-- C7: with exactly three card-holding active players and no timeout,
a strictly highest card wins the whole game immediately — the winner is
credited the pot minus the floor-rounded 5 % commission and the session
is deleted; if the highest rank is shared, no immediate win occurs and
the round falls through to the normal lowest-rank elimination logic
(`tallyLowest`). -/
theorem C7_three_player_highest_card_wins
    (s : Lowcard.Store) (g : Lowcard.Game) (now : Nat) (w : Lowcard.Player) :
    (s.game = some g → (Lowcard.activePlayers g).length = 3 →
      (Lowcard.activePlayers g).filter
          (fun p => Lowcard.cardVal p
            == Lowcard.maxValue ((Lowcard.activePlayers g).map Lowcard.cardVal)) = [w] →
      (Lowcard.tallyRound s false now).1
        = Lowcard.TallyR.gameOver w.userId (g.pot - g.pot * 5 / 100) ∧
      (Lowcard.tallyRound s false now).2.game = none) ∧
    (s.game = some g → (Lowcard.activePlayers g).length = 3 →
      1 < ((Lowcard.activePlayers g).filter
          (fun p => Lowcard.cardVal p
            == Lowcard.maxValue ((Lowcard.activePlayers g).map Lowcard.cardVal))).length →
      Lowcard.tallyRound s false now = Lowcard.tallyLowest s g false now) := by
  constructor
  · intro hg h3 hw
    have heq : Lowcard.tallyRound s false now = Lowcard.finishWith s g w := by
      simp only [Lowcard.tallyRound, hg, h3, hw]
      rfl
    rw [heq]
    exact ⟨rfl, rfl⟩
  · intro hg h3 hlen
    simp only [Lowcard.tallyRound, hg, h3]
    rcases hws : (Lowcard.activePlayers g).filter
        (fun p => Lowcard.cardVal p
          == Lowcard.maxValue ((Lowcard.activePlayers g).map Lowcard.cardVal))
      with _ | ⟨a, _ | ⟨b, tb⟩⟩
    · rfl
    · rw [hws] at hlen
      simp at hlen
    · rfl

/-- Concrete three-player card round: values 5, 9, 14 — unique
highest. -/
def Lowcard.game3 : Game :=
  { id := 5, status := GStatus.playing, entryAmount := 100, pot := 300,
    currentRound := 1,
    players := [⟨1, "a", false, true, some ⟨5, Suit.h⟩⟩,
                ⟨2, "b", false, true, some ⟨9, Suit.d⟩⟩,
                ⟨3, "c", false, true, some ⟨14, Suit.s⟩⟩],
    startedBy := 1, joinDeadline := 30005 }

/-- Concrete three-player card round with a tied highest: 5, 9, 9. -/
def Lowcard.game3t : Game :=
  { game3 with
    players := [⟨1, "a", false, true, some ⟨5, Suit.h⟩⟩,
                ⟨2, "b", false, true, some ⟨9, Suit.d⟩⟩,
                ⟨3, "c", false, true, some ⟨9, Suit.s⟩⟩] }

/-- Witness for C7: player 3 with the 14 wins 285 = 300 − ⌊300·5/100⌋
immediately and the session is deleted; in the tied-highest round the
tally equals the lowest-rank fall-through, which eliminates the 5. -/
theorem C7_three_player_highest_card_wins_witness :
    ((Lowcard.tallyRound ⟨true, false, some Lowcard.game3, none, sampleBal⟩ false 40000).1
        = Lowcard.TallyR.gameOver 3 285 ∧
      (Lowcard.tallyRound ⟨true, false, some Lowcard.game3, none, sampleBal⟩ false 40000).2.game
        = none) ∧
    (Lowcard.tallyRound ⟨true, false, some Lowcard.game3t, none, sampleBal⟩ false 40000
      = Lowcard.tallyLowest ⟨true, false, some Lowcard.game3t, none, sampleBal⟩
          Lowcard.game3t false 40000 ∧
      (Lowcard.tallyRound ⟨true, false, some Lowcard.game3t, none, sampleBal⟩ false 40000).1
        = Lowcard.TallyR.eliminated [1] 2 2) := by
  have h1 := C7_three_player_highest_card_wins
    ⟨true, false, some Lowcard.game3, none, sampleBal⟩ Lowcard.game3 40000
    ⟨3, "c", false, true, some ⟨14, Lowcard.Suit.s⟩⟩
  have h2 := C7_three_player_highest_card_wins
    ⟨true, false, some Lowcard.game3t, none, sampleBal⟩ Lowcard.game3t 40000
    ⟨3, "c", false, true, some ⟨9, Lowcard.Suit.s⟩⟩
  refine ⟨?_, ?_, by decide⟩
  · have := h1.1 rfl (by decide) (by decide)
    exact ⟨this.1, this.2⟩
  · exact h2.2 rfl (by decide) (by decide)

/-- C8 part 1: with four active card-holding players of which exactly
the first two tie for the lowest rank, a non-timeout tally declares a
tie: only the two tied players lose their card and drawn flag for the
redraw, the other two keep their exact records (no elimination, no
redraw), and the tied pair is carried in `previousTiedLosers`. -/
theorem Lowcard.tally_tie_redraw (s : Store) (g : Game)
    (a b c d : Player) (va vc vd : Nat) (now : Nat)
    (hg : s.game = some g) (hps : g.players = [a, b, c, d])
    (ha : a.isEliminated = false) (hb : b.isEliminated = false)
    (hc : c.isEliminated = false) (hd : d.isEliminated = false)
    (hsa : a.currentCard.isSome = true) (hsb : b.currentCard.isSome = true)
    (hsc : c.currentCard.isSome = true) (hsd : d.currentCard.isSome = true)
    (hva : cardVal a = va) (hvb : cardVal b = va)
    (hvc : cardVal c = vc) (hvd : cardVal d = vd)
    (hlt1 : va < vc) (hlt2 : va < vd)
    (hac : a.userId ≠ c.userId) (hbc : b.userId ≠ c.userId)
    (had : a.userId ≠ d.userId) (hbd : b.userId ≠ d.userId) :
    (tallyRound s false now).1 = TallyR.tie [a.userId, b.userId] ∧
    (tallyRound s false now).2.game
      = some { g with
          previousTiedLosers := some [a.userId, b.userId]
          players := [{ a with hasDrawn := false, currentCard := none },
                      { b with hasDrawn := false, currentCard := none },
                      c, d] } := by
  have hactive : activePlayers g = [a, b, c, d] := by
    simp [activePlayers, hps, ha, hb, hc, hd, hsa, hsb, hsc, hsd]
  have hmin : minValue (List.map cardVal [a, b, c, d]) = va := by
    simp [minValue, hva, hvb, hvc, hvd]
    omega
  have hne1 : (vc == va) = false := by simp; omega
  have hne2 : (vd == va) = false := by simp; omega
  have hlosers : List.filter (fun p => cardVal p == va) [a, b, c, d] = [a, b] := by
    simp [List.filter, hva, hvb, hvc, hvd, hne1, hne2]
  constructor <;>
  · simp only [tallyRound, tallyLowest, hg, hactive, hmin, hlosers]
    simp [resetTied, hps, ha, hb, hc, hd, hac, hbc, had, hbd]

/-- C8 part 2: if the same two players tie for lowest again and that
round timed out, both carried tied players are eliminated
simultaneously and the other two players survive into the next round. -/
theorem Lowcard.tally_tie_breaker_elimination (s : Store) (g : Game)
    (a b c d : Player) (va vc vd : Nat) (now : Nat)
    (hg : s.game = some g) (hps : g.players = [a, b, c, d])
    (hprev : g.previousTiedLosers = some [a.userId, b.userId])
    (ha : a.isEliminated = false) (hb : b.isEliminated = false)
    (hc : c.isEliminated = false) (hd : d.isEliminated = false)
    (hsa : a.currentCard.isSome = true) (hsb : b.currentCard.isSome = true)
    (hsc : c.currentCard.isSome = true) (hsd : d.currentCard.isSome = true)
    (hva : cardVal a = va) (hvb : cardVal b = va)
    (hvc : cardVal c = vc) (hvd : cardVal d = vd)
    (hlt1 : va < vc) (hlt2 : va < vd)
    (hab : a.userId ≠ b.userId)
    (hac : a.userId ≠ c.userId) (hbc : b.userId ≠ c.userId)
    (had : a.userId ≠ d.userId) (hbd : b.userId ≠ d.userId) :
    (tallyRound s true now).1
      = TallyR.tieBreakerEliminated [a.userId, b.userId] 2 (g.currentRound + 1) ∧
    (tallyRound s true now).2.game
      = some { g with
          currentRound := g.currentRound + 1
          previousTiedLosers := none
          countdownEndsAt := now + COUNTDOWN_DELAY
          roundDeadline := now + COUNTDOWN_DELAY + DRAW_TIMEOUT
          players := [{ a with isEliminated := true },
                      { b with isEliminated := true },
                      { c with hasDrawn := false, currentCard := none },
                      { d with hasDrawn := false, currentCard := none }] } := by
  have hactive : activePlayers g = [a, b, c, d] := by
    simp [activePlayers, hps, ha, hb, hc, hd, hsa, hsb, hsc, hsd]
  have hmin : minValue (List.map cardVal [a, b, c, d]) = va := by
    simp [minValue, hva, hvb, hvc, hvd]
    omega
  have hne1 : (vc == va) = false := by simp; omega
  have hne2 : (vd == va) = false := by simp; omega
  have hlosers : List.filter (fun p => cardVal p == va) [a, b, c, d] = [a, b] := by
    simp [List.filter, hva, hvb, hvc, hvd, hne1, hne2]
  have hba : b.userId ≠ a.userId := Ne.symm hab
  have hca : c.userId ≠ a.userId := Ne.symm hac
  have hcb : c.userId ≠ b.userId := Ne.symm hbc
  have hda : d.userId ≠ a.userId := Ne.symm had
  have hdb : d.userId ≠ b.userId := Ne.symm hbd
  constructor <;>
  · simp only [tallyRound, tallyLowest, hg, hactive, hmin, hlosers, hprev]
    simp [elimByIds, updateFirst, resetRound, hps, ha, hb, hc, hd,
      hab, hba, hca, hcb, hda, hdb]

/-- C8: four active players, two tie for lowest without a timeout —
only those two redraw while the others are untouched; the same two tie
again on a timeout — both are eliminated simultaneously.  The two
square brackets of the conjunction are `Lowcard.tally_tie_redraw` and
`Lowcard.tally_tie_breaker_elimination` specialised to the same tied
pair. -/
theorem C8_four_player_tie_handling (s1 s2 : Lowcard.Store) (g1 g2 : Lowcard.Game)
    (a b c d a2 b2 : Lowcard.Player) (va va2 vc vd vc2 vd2 now : Nat)
    (hg1 : s1.game = some g1) (hps1 : g1.players = [a, b, c, d])
    (ha : a.isEliminated = false) (hb : b.isEliminated = false)
    (hc : c.isEliminated = false) (hd : d.isEliminated = false)
    (hsa : a.currentCard.isSome = true) (hsb : b.currentCard.isSome = true)
    (hsc : c.currentCard.isSome = true) (hsd : d.currentCard.isSome = true)
    (hva : Lowcard.cardVal a = va) (hvb : Lowcard.cardVal b = va)
    (hvc : Lowcard.cardVal c = vc) (hvd : Lowcard.cardVal d = vd)
    (hlt1 : va < vc) (hlt2 : va < vd)
    (hab : a.userId ≠ b.userId)
    (hac : a.userId ≠ c.userId) (hbc : b.userId ≠ c.userId)
    (had : a.userId ≠ d.userId) (hbd : b.userId ≠ d.userId)
    -- the redraw round: a2, b2 are the tied players' new records
    (hg2 : s2.game = some g2) (hps2 : g2.players = [a2, b2, c, d])
    (hprev : g2.previousTiedLosers = some [a2.userId, b2.userId])
    (ha2 : a2.isEliminated = false) (hb2 : b2.isEliminated = false)
    (hsa2 : a2.currentCard.isSome = true) (hsb2 : b2.currentCard.isSome = true)
    (hsc2 : c.currentCard.isSome = true) (hsd2 : d.currentCard.isSome = true)
    (hva2 : Lowcard.cardVal a2 = va2) (hvb2 : Lowcard.cardVal b2 = va2)
    (hvc2 : Lowcard.cardVal c = vc2) (hvd2 : Lowcard.cardVal d = vd2)
    (hlt12 : va2 < vc2) (hlt22 : va2 < vd2)
    (hab2 : a2.userId ≠ b2.userId)
    (hac2 : a2.userId ≠ c.userId) (hbc2 : b2.userId ≠ c.userId)
    (had2 : a2.userId ≠ d.userId) (hbd2 : b2.userId ≠ d.userId) :
    ((Lowcard.tallyRound s1 false now).1 = Lowcard.TallyR.tie [a.userId, b.userId] ∧
      (Lowcard.tallyRound s1 false now).2.game
        = some { g1 with
            previousTiedLosers := some [a.userId, b.userId]
            players := [{ a with hasDrawn := false, currentCard := none },
                        { b with hasDrawn := false, currentCard := none },
                        c, d] }) ∧
    ((Lowcard.tallyRound s2 true now).1
        = Lowcard.TallyR.tieBreakerEliminated [a2.userId, b2.userId] 2
            (g2.currentRound + 1) ∧
      (Lowcard.tallyRound s2 true now).2.game
        = some { g2 with
            currentRound := g2.currentRound + 1
            previousTiedLosers := none
            countdownEndsAt := now + Lowcard.COUNTDOWN_DELAY
            roundDeadline := now + Lowcard.COUNTDOWN_DELAY + Lowcard.DRAW_TIMEOUT
            players := [{ a2 with isEliminated := true },
                        { b2 with isEliminated := true },
                        { c with hasDrawn := false, currentCard := none },
                        { d with hasDrawn := false, currentCard := none }] }) := by
  constructor
  · exact Lowcard.tally_tie_redraw s1 g1 a b c d va vc vd now hg1 hps1 ha hb hc hd
      hsa hsb hsc hsd hva hvb hvc hvd hlt1 hlt2 hac hbc had hbd
  · exact Lowcard.tally_tie_breaker_elimination s2 g2 a2 b2 c d va2 vc2 vd2 now hg2 hps2
      hprev ha2 hb2 hc hd hsa2 hsb2 hsc2 hsd2 hva2 hvb2 hvc2 hvd2 hlt12 hlt22
      hab2 hac2 hbc2 had2 hbd2

/-- Concrete four-player card round: players 1 and 2 tie lowest with
3s, players 3 and 4 hold 8 and 11. -/
def Lowcard.game4 : Game :=
  { id := 5, status := GStatus.playing, entryAmount := 100, pot := 400,
    currentRound := 1,
    players := [⟨1, "a", false, true, some ⟨3, Suit.h⟩⟩,
                ⟨2, "b", false, true, some ⟨3, Suit.d⟩⟩,
                ⟨3, "c", false, true, some ⟨8, Suit.c⟩⟩,
                ⟨4, "d", false, true, some ⟨11, Suit.s⟩⟩],
    startedBy := 1, joinDeadline := 30005 }

/-- The redraw round after `Lowcard.game4`: players 1 and 2 drew new
6s — tied again — while 3 and 4 retain their 8 and 11. -/
def Lowcard.game4t : Game :=
  { game4 with
    currentRound := 2
    previousTiedLosers := some [1, 2]
    players := [⟨1, "a", false, true, some ⟨6, Suit.c⟩⟩,
                ⟨2, "b", false, true, some ⟨6, Suit.s⟩⟩,
                ⟨3, "c", false, true, some ⟨8, Suit.c⟩⟩,
                ⟨4, "d", false, true, some ⟨11, Suit.s⟩⟩] }

/-- Witness for C8: the concrete non-timeout tally declares the tie of
players 1 and 2; the concrete timed-out redraw eliminates both carried
players at once, leaving players 3 and 4. -/
theorem C8_four_player_tie_handling_witness :
    (Lowcard.tallyRound ⟨true, false, some Lowcard.game4, none, sampleBal⟩ false 50000).1
      = Lowcard.TallyR.tie [1, 2] ∧
    (Lowcard.tallyRound ⟨true, false, some Lowcard.game4t, none, sampleBal⟩ true 50000).1
      = Lowcard.TallyR.tieBreakerEliminated [1, 2] 2 3 := by
  have h := C8_four_player_tie_handling
    ⟨true, false, some Lowcard.game4, none, sampleBal⟩
    ⟨true, false, some Lowcard.game4t, none, sampleBal⟩
    Lowcard.game4 Lowcard.game4t
    ⟨1, "a", false, true, some ⟨3, Lowcard.Suit.h⟩⟩
    ⟨2, "b", false, true, some ⟨3, Lowcard.Suit.d⟩⟩
    ⟨3, "c", false, true, some ⟨8, Lowcard.Suit.c⟩⟩
    ⟨4, "d", false, true, some ⟨11, Lowcard.Suit.s⟩⟩
    ⟨1, "a", false, true, some ⟨6, Lowcard.Suit.c⟩⟩
    ⟨2, "b", false, true, some ⟨6, Lowcard.Suit.s⟩⟩
    3 6 8 11 8 11 50000
    rfl rfl rfl rfl rfl rfl rfl rfl rfl rfl rfl rfl rfl rfl
    (by decide) (by decide) (by decide) (by decide) (by decide) (by decide) (by decide)
    rfl rfl rfl rfl rfl rfl rfl rfl rfl rfl rfl rfl rfl
    (by decide) (by decide) (by decide) (by decide) (by decide) (by decide) (by decide)
  exact ⟨h.1.1, h.2.1⟩

/-- The three-player endgame counts card-holders: with four
non-eliminated players of which only b, c, d hold cards (a holds none)
and d strictly highest among the holders, a non-timeout tally ends the
game at once in favour of d. -/
theorem Lowcard.tally_three_cardholders (s : Store) (g : Game)
    (a b c d : Player) (vb vc vd : Nat) (now : Nat)
    (hg : s.game = some g) (hps : g.players = [a, b, c, d])
    (ha : a.isEliminated = false) (hb : b.isEliminated = false)
    (hc : c.isEliminated = false) (hd : d.isEliminated = false)
    (hsa : a.currentCard.isSome = false)
    (hsb : b.currentCard.isSome = true) (hsc : c.currentCard.isSome = true)
    (hsd : d.currentCard.isSome = true)
    (hvb : cardVal b = vb) (hvc : cardVal c = vc) (hvd : cardVal d = vd)
    (hlt1 : vb < vd) (hlt2 : vc < vd) :
    (tallyRound s false now).1 = TallyR.gameOver d.userId (g.pot - g.pot * 5 / 100) ∧
    (tallyRound s false now).2.game = none := by
  have hactive : activePlayers g = [b, c, d] := by
    simp [activePlayers, hps, ha, hb, hc, hd, hsa, hsb, hsc, hsd]
  have hmax : maxValue (List.map cardVal [b, c, d]) = vd := by
    simp [maxValue, hvb, hvc, hvd]
    omega
  have hne1 : (vb == vd) = false := by simp; omega
  have hne2 : (vc == vd) = false := by simp; omega
  have hwinners : List.filter (fun p => cardVal p == vd) [b, c, d] = [d] := by
    simp [List.filter, hvb, hvc, hvd, hne1, hne2]
  have heq : tallyRound s false now = finishWith s g d := by
    simp only [tallyRound, hg, hactive, hmax, hwinners]
    rfl
  rw [heq]
  exact ⟨rfl, rfl⟩

/-- A retained card competes in the redraw round: with four
card-holding active players where c's (old) card is the strict unique
lowest, the non-timeout tally eliminates c even though the carried
`previousTiedLosers` names the other two. -/
theorem Lowcard.tally_retained_card_loses (s : Store) (g : Game)
    (a b c d : Player) (va vb vc vd : Nat) (now : Nat)
    (hg : s.game = some g) (hps : g.players = [a, b, c, d])
    (ha : a.isEliminated = false) (hb : b.isEliminated = false)
    (hc : c.isEliminated = false) (hd : d.isEliminated = false)
    (hsa : a.currentCard.isSome = true) (hsb : b.currentCard.isSome = true)
    (hsc : c.currentCard.isSome = true) (hsd : d.currentCard.isSome = true)
    (hva : cardVal a = va) (hvb : cardVal b = vb)
    (hvc : cardVal c = vc) (hvd : cardVal d = vd)
    (hlt1 : vc < va) (hlt2 : vc < vb) (hlt3 : vc < vd)
    (hca : a.userId ≠ c.userId) (hcb : b.userId ≠ c.userId) :
    (tallyRound s false now).1
      = TallyR.eliminated [c.userId] 3 (g.currentRound + 1) := by
  have hactive : activePlayers g = [a, b, c, d] := by
    simp [activePlayers, hps, ha, hb, hc, hd, hsa, hsb, hsc, hsd]
  have hmin : minValue (List.map cardVal [a, b, c, d]) = vc := by
    simp [minValue, hva, hvb, hvc, hvd]
    omega
  have hne1 : (va == vc) = false := by simp; omega
  have hne2 : (vb == vc) = false := by simp; omega
  have hne3 : (vd == vc) = false := by simp; omega
  have hlosers : List.filter (fun p => cardVal p == vc) [a, b, c, d] = [c] := by
    simp [List.filter, hva, hvb, hvc, hvd, hne1, hne2, hne3]
  simp only [tallyRound, tallyLowest, hg, hactive, hmin, hlosers]
  simp [elimByIds, updateFirst, resetRound, hps, ha, hb, hc, hd, hca, hcb]

/-- C10: in the card variant's tie redraw, the non-tied survivors keep
their exact records — the previous round's card included — while only
the tied players' `hasDrawn` and `currentCard` are reset; a tally's
active set is the non-eliminated players currently holding a card, so
the exactly-three endgame fires when three players hold cards even
though a fourth non-eliminated player exists, and a retained old card
competes against the redrawers' new cards in the next lowest-rank
comparison, losing to them when it is the unique lowest. -/
theorem C10_redraw_retained_cards
    (s1 s2 s3 : Lowcard.Store) (g1 g2 g3 : Lowcard.Game)
    (a b c d a2 b2 e f k m : Lowcard.Player)
    (va va2 vc vd ve vf vk now : Nat)
    -- part 1: tie redraw leaves the non-tied records untouched
    (hg1 : s1.game = some g1) (hps1 : g1.players = [a, b, c, d])
    (ha : a.isEliminated = false) (hb : b.isEliminated = false)
    (hc : c.isEliminated = false) (hd : d.isEliminated = false)
    (hsa : a.currentCard.isSome = true) (hsb : b.currentCard.isSome = true)
    (hsc : c.currentCard.isSome = true) (hsd : d.currentCard.isSome = true)
    (hva : Lowcard.cardVal a = va) (hvb : Lowcard.cardVal b = va)
    (hvc : Lowcard.cardVal c = vc) (hvd : Lowcard.cardVal d = vd)
    (hlt1 : va < vc) (hlt2 : va < vd)
    (hac : a.userId ≠ c.userId) (hbc : b.userId ≠ c.userId)
    (had : a.userId ≠ d.userId) (hbd : b.userId ≠ d.userId)
    -- part 2: three card-holders of four non-eliminated players
    (hg2 : s2.game = some g2) (hps2 : g2.players = [e, f, k, m])
    (he : e.isEliminated = false) (hf : f.isEliminated = false)
    (hk : k.isEliminated = false) (hm : m.isEliminated = false)
    (hse : e.currentCard.isSome = false)
    (hsf : f.currentCard.isSome = true) (hsk : k.currentCard.isSome = true)
    (hsm : m.currentCard.isSome = true)
    (hvf : Lowcard.cardVal f = vf) (hvk : Lowcard.cardVal k = vk)
    (hvm : Lowcard.cardVal m = ve)
    (hlt3 : vf < ve) (hlt4 : vk < ve)
    -- part 3: the redraw round, same retained records c and d
    (hg3 : s3.game = some g3) (hps3 : g3.players = [a2, b2, c, d])
    (ha2 : a2.isEliminated = false) (hb2 : b2.isEliminated = false)
    (hsa2 : a2.currentCard.isSome = true) (hsb2 : b2.currentCard.isSome = true)
    (hva2 : Lowcard.cardVal a2 = va2) (hvb2 : Lowcard.cardVal b2 = va2)
    (hlt5 : vc < va2) (hlt6 : vc < vd)
    (hca2 : a2.userId ≠ c.userId) (hcb2 : b2.userId ≠ c.userId) :
    -- only the tied players are reset; c and d keep their records
    ((Lowcard.tallyRound s1 false now).1 = Lowcard.TallyR.tie [a.userId, b.userId] ∧
      (Lowcard.tallyRound s1 false now).2.game
        = some { g1 with
            previousTiedLosers := some [a.userId, b.userId]
            players := [{ a with hasDrawn := false, currentCard := none },
                        { b with hasDrawn := false, currentCard := none },
                        c, d] }) ∧
    -- the endgame counts card-holders, not all non-eliminated players
    ((Lowcard.tallyRound s2 false now).1
        = Lowcard.TallyR.gameOver m.userId (g2.pot - g2.pot * 5 / 100) ∧
      (Lowcard.tallyRound s2 false now).2.game = none) ∧
    -- the retained lowest card is eliminated against the new draws
    ((Lowcard.tallyRound s3 false now).1
        = Lowcard.TallyR.eliminated [c.userId] 3 (g3.currentRound + 1)) := by
  refine ⟨?_, ?_, ?_⟩
  · exact Lowcard.tally_tie_redraw s1 g1 a b c d va vc vd now hg1 hps1 ha hb hc hd
      hsa hsb hsc hsd hva hvb hvc hvd hlt1 hlt2 hac hbc had hbd
  · exact Lowcard.tally_three_cardholders s2 g2 e f k m vf vk ve now hg2 hps2 he hf hk hm
      hse hsf hsk hsm hvf hvk hvm hlt3 hlt4
  · exact Lowcard.tally_retained_card_loses s3 g3 a2 b2 c d va2 va2 vc vd now hg3 hps3
      ha2 hb2 hc hd hsa2 hsb2 hsc hsd hva2 hvb2 hvc hvd hlt5 hlt5 hlt6 hca2 hcb2

/-- Four non-eliminated players of which only three hold cards (player
1 holds none); 13 is the unique highest card. -/
def Lowcard.game3h : Game :=
  { id := 5, status := GStatus.playing, entryAmount := 100, pot := 400,
    currentRound := 2,
    players := [⟨1, "a", false, false, none⟩,
                ⟨2, "b", false, true, some ⟨7, Suit.h⟩⟩,
                ⟨3, "c", false, true, some ⟨9, Suit.d⟩⟩,
                ⟨4, "d", false, true, some ⟨13, Suit.s⟩⟩],
    startedBy := 1, joinDeadline := 30005 }

/-- The redraw round after `Lowcard.game4`: the tied players 1 and 2
drew new 9s while players 3 and 4 retain their 8 and 11 — the retained
8 is now the unique lowest. -/
def Lowcard.game4r : Game :=
  { game4 with
    currentRound := 2
    previousTiedLosers := some [1, 2]
    players := [⟨1, "a", false, true, some ⟨9, Suit.c⟩⟩,
                ⟨2, "b", false, true, some ⟨9, Suit.s⟩⟩,
                ⟨3, "c", false, true, some ⟨8, Suit.c⟩⟩,
                ⟨4, "d", false, true, some ⟨11, Suit.s⟩⟩] }

/-- Witness for C10: the concrete tie of `Lowcard.game4` resets only
players 1 and 2 while 3 and 4 keep their 8 and 11; the tally of
`Lowcard.game3h` ends the game for player 4 despite four non-eliminated
players; and in `Lowcard.game4r` the retained 8 loses against the fresh
9s, eliminating player 3. -/
theorem C10_redraw_retained_cards_witness :
    (Lowcard.tallyRound ⟨true, false, some Lowcard.game4, none, sampleBal⟩ false 51000).2.game
      = some { Lowcard.game4 with
          previousTiedLosers := some [1, 2]
          players := [⟨1, "a", false, false, none⟩,
                      ⟨2, "b", false, false, none⟩,
                      ⟨3, "c", false, true, some ⟨8, Lowcard.Suit.c⟩⟩,
                      ⟨4, "d", false, true, some ⟨11, Lowcard.Suit.s⟩⟩] } ∧
    (Lowcard.tallyRound ⟨true, false, some Lowcard.game3h, none, sampleBal⟩ false 51000).1
      = Lowcard.TallyR.gameOver 4 380 ∧
    (Lowcard.tallyRound ⟨true, false, some Lowcard.game4r, none, sampleBal⟩ false 51000).1
      = Lowcard.TallyR.eliminated [3] 3 3 := by
  have h := C10_redraw_retained_cards
    ⟨true, false, some Lowcard.game4, none, sampleBal⟩
    ⟨true, false, some Lowcard.game3h, none, sampleBal⟩
    ⟨true, false, some Lowcard.game4r, none, sampleBal⟩
    Lowcard.game4 Lowcard.game3h Lowcard.game4r
    ⟨1, "a", false, true, some ⟨3, Lowcard.Suit.h⟩⟩
    ⟨2, "b", false, true, some ⟨3, Lowcard.Suit.d⟩⟩
    ⟨3, "c", false, true, some ⟨8, Lowcard.Suit.c⟩⟩
    ⟨4, "d", false, true, some ⟨11, Lowcard.Suit.s⟩⟩
    ⟨1, "a", false, true, some ⟨9, Lowcard.Suit.c⟩⟩
    ⟨2, "b", false, true, some ⟨9, Lowcard.Suit.s⟩⟩
    ⟨1, "a", false, false, none⟩
    ⟨2, "b", false, true, some ⟨7, Lowcard.Suit.h⟩⟩
    ⟨3, "c", false, true, some ⟨9, Lowcard.Suit.d⟩⟩
    ⟨4, "d", false, true, some ⟨13, Lowcard.Suit.s⟩⟩
    3 9 8 11 13 7 9 51000
    rfl rfl rfl rfl rfl rfl rfl rfl rfl rfl rfl rfl rfl rfl
    (by decide) (by decide) (by decide) (by decide) (by decide) (by decide)
    rfl rfl rfl rfl rfl rfl rfl rfl rfl rfl rfl rfl rfl
    (by decide) (by decide)
    rfl rfl rfl rfl rfl rfl rfl rfl
    (by decide) (by decide) (by decide) (by decide)
  exact ⟨h.1.2, h.2.1.1, h.2.2⟩

end Migx
